import Mathlib

/-!
# tesoql: query validation and compilation

A shallow embedding of the validation pipeline (`validation.go`,
`toggleValidation.go`), of the SQL compiler and the document-store compiler
(`queryBuilder.go`, `helper.go`), of `Service.Get` (`service.go`), of the
count query of the SQL repository (`sqlRepo.go`) and of the engine switch of
`NewTesoQL` (`builder.go`), followed by the properties proved about them.

Modelling conventions.

* A Go `map[string]T` that the code ranges over is a list of key/value pairs
  in the order in which the `range` statement visits them; a statement about
  every list is a statement about every iteration order.  For the request's
  maps and slices that are only ranged over, measured with `len` or compared
  with `nil` before being ranged over, the nil value and the empty value are
  both the empty list.
* The five registry maps of `FieldsMap` are `Option`s: `none` is the nil map.
  Indexing a nil map is legal in Go and finds nothing.
* A pointer that may be nil is an `Option`.  Dereferencing a nil pointer is a
  run-time panic: functions that can do so return in `Go`.
* `interface` values are the type `Value`; `Value.nil` is the nil interface.
* `int64` and `int` are `Int`; the code only compares and prints them.
* The library function `time.Parse` is a parameter `parse : TimeParser` of the
  functions that reach it; a BSON document is a value of the type `Bson`.
-/

namespace Tesoql

/-! ## constant.go -/

def TESOQL_TOGGLE_ERROR : String := "TESOQL_TOGGLE_ERROR"
def TESOQL_VALIDATION_ERROR : String := "TESOQL_VALIDATION_ERROR"

def SORTABLE_ERR_CODE : Int := 400001
def SEARCHABLE_ERR_CODE : Int := 400002
def PROJECTION_ERR_CODE : Int := 400003
def CONDITION_ERR_CODE : Int := 400004

def SORTABLE_TOGGLE_ERR_CODE : Int := 400005
def SEARCHABLE_TOGGLE_ERR_CODE : Int := 400006
def PROJECTION_TOGGLE_ERR_CODE : Int := 400007
def CONDITION_TOGGLE_ERR_CODE : Int := 400008
def PAGINATION_TOGGLE_ERR_CODE : Int := 400009
def GREATERTHAN_CONDITION_TOGGLE_ERR_CODE : Int := 400010
def GREATEROREQUAL_CONDITION_TOGGLE_ERR_CODE : Int := 400011
def LOWERTHAN_CONDITION_TOGGLE_ERR_CODE : Int := 400012
def LOWEROREQUAL_CONDITION_TOGGLE_ERR_CODE : Int := 400013
def VALUESTOEXCLUDE_CONDITION_TOGGLE_ERR_CODE : Int := 400014
def VALUESTOEXACTMATCH_CONDITION_TOGGLE_ERR_CODE : Int := 400015
def LOWTOHIGH_CONDITION_TOGGLE_ERR_CODE : Int := 400016
def HIGHTOLOW_CONDITION_TOGGLE_ERR_CODE : Int := 400017

/-! ## Run-time values -/

/-- The dynamic values an `interface` slot of the request holds: the nil
interface, a boolean, an integer or a string. -/
inductive Value where
  | nil
  | bool (b : Bool)
  | int (n : Int)
  | str (s : String)
  deriving DecidableEq, Repr

/-- The run-time panics of the embedded code. -/
inductive Panic where
  | nilDereference
  deriving DecidableEq, Repr

/-- Results of code that may panic. -/
abbrev Go (α : Type) := Except Panic α

/-- A Go `map[string]string`; `none` is the nil map. -/
abbrev StrMap := Option (List (String × String))

/-- The comma-ok lookup `v, exists := m[k]`. -/
def StrMap.get? (m : StrMap) (k : String) : Option String :=
  match m with
  | none => none
  | some kvs => kvs.lookup k

/-- The existence test `_, exists := m[k]`. -/
def StrMap.has (m : StrMap) (k : String) : Bool := (m.get? k).isSome

/-- The plain index expression `m[k]`: the zero value `""` for a missing key. -/
def StrMap.index (m : StrMap) (k : String) : String := (m.get? k).getD ""

/-! ## types.go -/

structure ConditionOperators where
  GreaterThan : Value
  GreaterOrEqual : Value
  ValuesToExactMatch : Option (List Value)
  LowerThan : Value
  LowerOrEqual : Value
  ValuesToExclude : Option (List Value)
  deriving DecidableEq, Repr

structure Pagination where
  Limit : Int
  Offset : Int
  deriving DecidableEq, Repr

structure SortInput where
  Field : String
  SortCondition : String
  deriving DecidableEq, Repr

structure JsonMap where
  Search : List (String × List Value)
  ProjectionFields : List String
  SortConditions : List SortInput
  Conditions : List (String × ConditionOperators)
  Pagination : Tesoql.Pagination
  TotalCount : Bool
  SuppressDataResponse : Bool
  deriving DecidableEq, Repr

structure ErrorResponseDTO where
  ErrorType : String
  ErrorMsg : String
  ErrorCode : Int
  deriving DecidableEq, Repr

/-! ## config.go -/

structure FieldsMap where
  DateTimeFieldKeys : StrMap
  SearchFields : StrMap
  SortingFields : StrMap
  ProjectionFields : StrMap
  ConditionFields : StrMap
  deriving DecidableEq, Repr

/-- The connection details; the client handle is left out. -/
structure ConnectionConfig where
  DBName : String
  TableName : String
  ConnectionString : String
  deriving DecidableEq, Repr

structure SortingToggles where
  DisableHighToLow : Bool
  DisableLowToHigh : Bool
  deriving DecidableEq, Repr

structure ConditioningToggles where
  DisableGreaterThan : Bool
  DisableGreaterOrEqual : Bool
  DisableValuesToExactMatch : Bool
  DisableLowerThan : Bool
  DisableLowerOrEqual : Bool
  DisableValuesToExclude : Bool
  deriving DecidableEq, Repr

structure ToggleConfig where
  DisableSearch : Bool
  DisableProjection : Bool
  DisableSorting : Bool
  DisableConditioning : Bool
  DisablePagination : Bool
  DisableTotalCount : Bool
  SortingToggles : Option Tesoql.SortingToggles
  ConditioningToggles : Option Tesoql.ConditioningToggles
  deriving DecidableEq, Repr

structure PaginationConfig where
  LimitUpperBound : Int
  deriving DecidableEq, Repr

structure Config where
  Engine : String
  ConnectionConfig : Option Tesoql.ConnectionConfig
  Toggles : Option ToggleConfig
  FieldsMap : Option Tesoql.FieldsMap
  Pagination : Option PaginationConfig
  PrintSqlQuery : Bool
  deriving DecidableEq, Repr

/-! ## helper.go -/

def newResponse (errType : String) (msg : String) (errCode : Int) : ErrorResponseDTO :=
  { ErrorType := errType, ErrorMsg := msg, ErrorCode := errCode }

/-! ## validation.go -/

/-- The loop of `validateSorting`; each iteration reads `fm.SortingFields`
through the pointer `fm`. -/
def validateSortingLoop (fm : Option FieldsMap) : List SortInput → Go (Option ErrorResponseDTO)
  | [] => .ok none
  | sortInput :: rest =>
    match fm with
    | none => .error Panic.nilDereference
    | some f =>
      if !(f.SortingFields.has sortInput.Field) then
        .ok (some (newResponse TESOQL_VALIDATION_ERROR
          ("Field : '" ++ sortInput.Field ++ "' is not sortable.") SORTABLE_ERR_CODE))
      else if sortInput.SortCondition != "ASC" && sortInput.SortCondition != "DESC" then
        .ok (some (newResponse TESOQL_VALIDATION_ERROR
          "Sort condition operators cannot be different than 'ASC' or 'DESC' (type : string)!"
          SORTABLE_ERR_CODE))
      else validateSortingLoop fm rest

def validateSorting (jm : JsonMap) (fm : Option FieldsMap) : Go (Option ErrorResponseDTO) :=
  validateSortingLoop fm jm.SortConditions

/-- The effective limit bound of `validatePagination`. -/
def upperBoundOf (paginationCfg : Option PaginationConfig) : Int :=
  match paginationCfg with
  | some c => c.LimitUpperBound
  | none => 50

def validatePagination (jm : JsonMap) (paginationCfg : Option PaginationConfig) : JsonMap :=
  let o := jm.Pagination.Offset
  let o := if o < 0 || o > 500 then 0 else o
  let upperBound := upperBoundOf paginationCfg
  let l := jm.Pagination.Limit
  let l := if l <= 0 || l > upperBound then upperBound else l
  { jm with Pagination := { Limit := l, Offset := o } }

/-- The search loop of `validateSearchAndProjection`. -/
def validateSearchLoop (searchFields : StrMap) : List (String × List Value) → Option ErrorResponseDTO
  | [] => none
  | kv :: rest =>
    if !(searchFields.has kv.1) then
      some (newResponse TESOQL_VALIDATION_ERROR
        ("Field : '" ++ kv.1 ++ "' is not searchable.") SEARCHABLE_ERR_CODE)
    else validateSearchLoop searchFields rest

/-- The projection loop of `validateSearchAndProjection`. -/
def validateProjectionLoop (projectionFields : StrMap) : List String → Option ErrorResponseDTO
  | [] => none
  | field :: rest =>
    if !(projectionFields.has field) then
      some (newResponse TESOQL_VALIDATION_ERROR
        ("Field : '" ++ field ++ "' is not compatible for to apply projectioning.")
        PROJECTION_ERR_CODE)
    else validateProjectionLoop projectionFields rest

def validateSearchAndProjection (jm : JsonMap) (fm : FieldsMap) : Option ErrorResponseDTO :=
  match (if fm.SearchFields.isSome then validateSearchLoop fm.SearchFields jm.Search else none) with
  | some err => some err
  | none =>
    if fm.ProjectionFields.isSome then validateProjectionLoop fm.ProjectionFields jm.ProjectionFields
    else none

/-- The loop of `validateConditions`; the registry is consulted only when
both `fm` and `fm.ConditionFields` are non-nil. -/
def validateConditionsLoop (fm : Option FieldsMap) :
    List (String × ConditionOperators) → Option ErrorResponseDTO
  | [] => none
  | kv :: rest =>
    match fm with
    | some f =>
      if f.ConditionFields.isSome && !(f.ConditionFields.has kv.1) then
        some (newResponse TESOQL_VALIDATION_ERROR
          ("Field : '" ++ kv.1 ++ "' is not compatible to apply a condition query.")
          CONDITION_ERR_CODE)
      else validateConditionsLoop fm rest
    | none => validateConditionsLoop fm rest

def validateConditions (jm : JsonMap) (fm : Option FieldsMap) : Option ErrorResponseDTO :=
  validateConditionsLoop fm jm.Conditions

/-- The method `JsonMap.Validate`: the request as the call leaves it, and the
returned error (`none` is nil). -/
def Validate (jm : JsonMap) (cfg : Config) : Go (JsonMap × Option ErrorResponseDTO) :=
  match (match cfg.FieldsMap with
         | some fm => validateSearchAndProjection jm fm
         | none => none) with
  | some err => .ok (jm, some err)
  | none =>
    match validateConditions jm cfg.FieldsMap with
    | some err => .ok (jm, some err)
    | none =>
      match validateSorting jm cfg.FieldsMap with
      | .error p => .error p
      | .ok (some err) => .ok (jm, some err)
      | .ok none => .ok (validatePagination jm cfg.Pagination, none)

/-! ## toggleValidation.go -/

/-- The function `validateUpperToggles`: the request as the call leaves it
(`TotalCount` is cleared before any check), and the returned error. -/
def validateUpperToggles (jsonMap : JsonMap) (t : ToggleConfig) :
    JsonMap × Option ErrorResponseDTO :=
  let jsonMap := if t.DisableTotalCount then { jsonMap with TotalCount := false } else jsonMap
  if t.DisableSearch && decide (jsonMap.Search.length > 0) then
    (jsonMap, some (newResponse TESOQL_TOGGLE_ERROR "DisableSearch toggle is open."
      SEARCHABLE_TOGGLE_ERR_CODE))
  else if t.DisableProjection && decide (jsonMap.ProjectionFields.length > 0) then
    (jsonMap, some (newResponse TESOQL_TOGGLE_ERROR "DisableProjection toggle is open."
      PROJECTION_TOGGLE_ERR_CODE))
  else if t.DisableSorting && decide (jsonMap.SortConditions.length > 0) then
    (jsonMap, some (newResponse TESOQL_TOGGLE_ERROR "DisableSorting toggle is open."
      SORTABLE_TOGGLE_ERR_CODE))
  else if t.DisablePagination &&
      (decide (jsonMap.Pagination.Limit > 0) || decide (jsonMap.Pagination.Offset > 0)) then
    (jsonMap, some (newResponse TESOQL_TOGGLE_ERROR "DisablePagination toggle is open."
      PAGINATION_TOGGLE_ERR_CODE))
  else if t.DisableConditioning && decide (jsonMap.Conditions.length > 0) then
    (jsonMap, some (newResponse TESOQL_TOGGLE_ERROR "DisableConditioning toggle is open."
      CONDITION_TOGGLE_ERR_CODE))
  else (jsonMap, none)

/-- The body of the loop of `validateConditionToggles` for one field, under a
non-nil `ConditioningToggles`: the error it returns, if any. -/
def conditionToggleCheck (ct : ConditioningToggles) (ops : ConditionOperators) :
    Option ErrorResponseDTO :=
  if ct.DisableGreaterThan && ops.GreaterThan != Value.nil then
    some (newResponse TESOQL_TOGGLE_ERROR "DisableGreaterThan toggle is open."
      GREATERTHAN_CONDITION_TOGGLE_ERR_CODE)
  else if ct.DisableGreaterOrEqual && ops.GreaterOrEqual != Value.nil then
    some (newResponse TESOQL_TOGGLE_ERROR "DisableGreaterOrEqual toggle is open."
      GREATEROREQUAL_CONDITION_TOGGLE_ERR_CODE)
  else if ct.DisableLowerThan && ops.LowerThan != Value.nil then
    some (newResponse TESOQL_TOGGLE_ERROR "DisableLowerThan toggle is open."
      LOWERTHAN_CONDITION_TOGGLE_ERR_CODE)
  else if ct.DisableLowerOrEqual && ops.LowerOrEqual != Value.nil then
    some (newResponse TESOQL_TOGGLE_ERROR "DisableLowerOrEqual toggle is open."
      LOWEROREQUAL_CONDITION_TOGGLE_ERR_CODE)
  else if ct.DisableValuesToExclude && ops.ValuesToExclude.isSome then
    some (newResponse TESOQL_TOGGLE_ERROR "DisableValuesToExclude toggle is open."
      VALUESTOEXCLUDE_CONDITION_TOGGLE_ERR_CODE)
  else if ct.DisableValuesToExactMatch && ops.ValuesToExactMatch.isSome then
    some (newResponse TESOQL_TOGGLE_ERROR "DisableValuesToExactMatch toggle is open."
      VALUESTOEXACTMATCH_CONDITION_TOGGLE_ERR_CODE)
  else none

/-- The loop of `validateConditionToggles`. -/
def validateConditionTogglesLoop (toggleConfig : ToggleConfig) :
    List (String × ConditionOperators) → Option ErrorResponseDTO
  | [] => none
  | kv :: rest =>
    match toggleConfig.ConditioningToggles with
    | some ct =>
      match conditionToggleCheck ct kv.2 with
      | some err => some err
      | none => validateConditionTogglesLoop toggleConfig rest
    | none => validateConditionTogglesLoop toggleConfig rest

def validateConditionToggles (jsonMap : JsonMap) (toggleConfig : ToggleConfig) :
    Option ErrorResponseDTO :=
  validateConditionTogglesLoop toggleConfig jsonMap.Conditions

/-- The test `t.SortingToggles != nil && t.SortingToggles.DisableLowToHigh`. -/
def lowToHighDisabled (t : ToggleConfig) : Bool :=
  match t.SortingToggles with
  | some st => st.DisableLowToHigh
  | none => false

/-- The test `t.SortingToggles != nil && t.SortingToggles.DisableHighToLow`. -/
def highToLowDisabled (t : ToggleConfig) : Bool :=
  match t.SortingToggles with
  | some st => st.DisableHighToLow
  | none => false

/-- The loop of `validateSortingToggles`. -/
def validateSortingTogglesLoop (t : ToggleConfig) : List SortInput → Option ErrorResponseDTO
  | [] => none
  | sortInput :: rest =>
    if sortInput.SortCondition == "ASC" && lowToHighDisabled t then
      some (newResponse TESOQL_TOGGLE_ERROR "DisableLowToHigh toggle is open."
        LOWTOHIGH_CONDITION_TOGGLE_ERR_CODE)
    else if sortInput.SortCondition == "DESC" && highToLowDisabled t then
      some (newResponse TESOQL_TOGGLE_ERROR "DisableHighToLow toggle is open."
        HIGHTOLOW_CONDITION_TOGGLE_ERR_CODE)
    else validateSortingTogglesLoop t rest

def validateSortingToggles (jm : JsonMap) (t : ToggleConfig) : Option ErrorResponseDTO :=
  validateSortingTogglesLoop t jm.SortConditions

/-- The function `validateToggles`: the request as the call leaves it, and the
returned error. -/
def validateToggles (jsonMap : JsonMap) (toggleConfig : Option ToggleConfig) :
    JsonMap × Option ErrorResponseDTO :=
  match toggleConfig with
  | none => (jsonMap, none)
  | some t =>
    match validateUpperToggles jsonMap t with
    | (jsonMap, some err) => (jsonMap, some err)
    | (jsonMap, none) =>
      match validateConditionToggles jsonMap t with
      | some err => (jsonMap, some err)
      | none =>
        match validateSortingToggles jsonMap t with
        | some err => (jsonMap, some err)
        | none => (jsonMap, none)

/-! ## queryBuilder.go, the SQL compiler -/

/-- The verb `%v` of `fmt.Sprintf` on the values of `Value`. -/
def sprintV : Value → String
  | Value.nil => "<nil>"
  | Value.bool true => "true"
  | Value.bool false => "false"
  | Value.int n => toString n
  | Value.str s => s

/-- The library function `strings.Join`. -/
def stringsJoin : List String → String → String
  | [], _ => ""
  | [a], _ => a
  | a :: b :: rest, sep => a ++ sep ++ stringsJoin (b :: rest) sep

structure SqlQuery where
  Select : String
  Where : String
  OrderBy : String
  Limit : String
  Offset : String
  Args : List Value
  deriving DecidableEq, Repr

/-- The loop of `getSqlProjection`; a key without an entry is skipped. -/
def getSqlProjectionLoop (fm : Option FieldsMap) : List String → List String → Go (List String)
  | [], fields => .ok fields
  | field :: rest, fields =>
    match fm with
    | none => .error Panic.nilDereference
    | some f =>
      match f.ProjectionFields.get? field with
      | some value => getSqlProjectionLoop fm rest (fields ++ [value])
      | none => getSqlProjectionLoop fm rest fields

def getSqlProjection (fm : Option FieldsMap) (jm : JsonMap) : Go String :=
  if jm.ProjectionFields.length > 0 then
    match getSqlProjectionLoop fm jm.ProjectionFields [] with
    | .ok fields => .ok (stringsJoin fields ", ")
    | .error p => .error p
  else .ok "*"

/-- The loop of `getSqlSortCondition`. -/
def getSqlSortConditionLoop (fm : Option FieldsMap) : List SortInput → List String → Go (List String)
  | [], orderBy => .ok orderBy
  | sortInput :: rest, orderBy =>
    match fm with
    | none => .error Panic.nilDereference
    | some f =>
      getSqlSortConditionLoop fm rest
        (orderBy ++ [f.SortingFields.index sortInput.Field ++ " " ++ sortInput.SortCondition])

def getSqlSortCondition (fm : Option FieldsMap) (jm : JsonMap) : Go String :=
  match getSqlSortConditionLoop fm jm.SortConditions [] with
  | .ok orderBy =>
    if orderBy.length > 0 then .ok (" ORDER BY " ++ stringsJoin orderBy ", ") else .ok ""
  | .error p => .error p

/-- The inner loop of `addSqlSearchFilter` over the values of one field. -/
def addSqlSearchTerms (fm : Option FieldsMap) (key : String) :
    List Value → List String → List Value → Go (List String × List Value)
  | [], orConditions, args => .ok (orConditions, args)
  | value :: rest, orConditions, args =>
    match fm with
    | none => .error Panic.nilDereference
    | some f =>
      addSqlSearchTerms fm key rest
        (orConditions ++ [f.SearchFields.index key ++ " LIKE ?"])
        (args ++ [Value.str ("%" ++ sprintV value ++ "%")])

/-- The outer loop of `addSqlSearchFilter`; `orConditions` is non-nil exactly
when a term was appended to it. -/
def addSqlSearchLoop (fm : Option FieldsMap) :
    List (String × List Value) → List String → List Value → Go (List String × List Value)
  | [], conditions, args => .ok (conditions, args)
  | kv :: rest, conditions, args =>
    match addSqlSearchTerms fm kv.1 kv.2 [] args with
    | .error p => .error p
    | .ok (orConditions, args) =>
      if !orConditions.isEmpty then
        addSqlSearchLoop fm rest
          (conditions ++ ["(" ++ stringsJoin orConditions " OR " ++ ")"]) args
      else addSqlSearchLoop fm rest conditions args

def addSqlSearchFilter (fm : Option FieldsMap) (jm : JsonMap) (conditions : List String)
    (args : List Value) : Go (List String × List Value) :=
  addSqlSearchLoop fm jm.Search conditions args

/-- The slice `placeholders` of `addSqlConditionFilters`: one `?` per value. -/
def placeholders (values : List Value) : List String := values.map (fun _ => "?")

/-- A list slot that is non-nil and non-empty appends `id <op> (?, ..., ?)`
and its values. -/
def sqlListSlot (fm : Option FieldsMap) (key : String) (op : String) (slot : Option (List Value))
    (st : List String × List Value) : Go (List String × List Value) :=
  match slot with
  | some (v :: vs) =>
    match fm with
    | none => .error Panic.nilDereference
    | some f =>
      .ok (st.1 ++ [f.ConditionFields.index key ++ " " ++ op ++ " (" ++
            stringsJoin (placeholders (v :: vs)) ", " ++ ")"],
           st.2 ++ (v :: vs))
  | _ => .ok st

/-- A scalar slot that is non-nil appends `id <op> ?` and its operand. -/
def sqlScalarSlot (fm : Option FieldsMap) (key : String) (op : String) (slot : Value)
    (st : List String × List Value) : Go (List String × List Value) :=
  if slot != Value.nil then
    match fm with
    | none => .error Panic.nilDereference
    | some f => .ok (st.1 ++ [f.ConditionFields.index key ++ " " ++ op ++ " ?"], st.2 ++ [slot])
  else .ok st

/-- The body of the loop of `addSqlConditionFilters` for one field. -/
def addSqlConditionStep (fm : Option FieldsMap) (key : String) (condition : ConditionOperators)
    (st : List String × List Value) : Go (List String × List Value) := do
  let st ← sqlListSlot fm key "IN" condition.ValuesToExactMatch st
  let st ← sqlScalarSlot fm key ">=" condition.GreaterOrEqual st
  let st ← sqlScalarSlot fm key ">" condition.GreaterThan st
  let st ← sqlScalarSlot fm key "<=" condition.LowerOrEqual st
  let st ← sqlScalarSlot fm key "<" condition.LowerThan st
  sqlListSlot fm key "NOT IN" condition.ValuesToExclude st

/-- The loop of `addSqlConditionFilters`. -/
def addSqlConditionLoop (fm : Option FieldsMap) :
    List (String × ConditionOperators) → List String × List Value → Go (List String × List Value)
  | [], st => .ok st
  | kv :: rest, st =>
    match addSqlConditionStep fm kv.1 kv.2 st with
    | .error p => .error p
    | .ok st => addSqlConditionLoop fm rest st

def addSqlConditionFilters (fm : Option FieldsMap) (jm : JsonMap) (conditions : List String)
    (args : List Value) : Go (List String × List Value) :=
  addSqlConditionLoop fm jm.Conditions (conditions, args)

def getSqlFilter (fm : Option FieldsMap) (jm : JsonMap) : Go (String × List Value) :=
  match addSqlSearchFilter fm jm [] [] with
  | .error p => .error p
  | .ok (conditions, args) =>
    match addSqlConditionFilters fm jm conditions args with
    | .error p => .error p
    | .ok (conditions, args) => .ok (stringsJoin conditions " AND ", args)

def NewSqlQuery (jm : JsonMap) (fm : Option FieldsMap) : Go SqlQuery := do
  let select ← getSqlProjection fm jm
  let (whereText, args) ← getSqlFilter fm jm
  let orderBy ← getSqlSortCondition fm jm
  pure { Select := select, Where := whereText, Args := args, OrderBy := orderBy,
         Limit := "LIMIT " ++ toString jm.Pagination.Limit,
         Offset := "OFFSET " ++ toString jm.Pagination.Offset }

/-- The method `GetSqlQuery` without its printing: the query text, the text
after `WHERE 1=1`, and the arguments. -/
def GetSqlQuery (jm : JsonMap) (fieldsMap : Option FieldsMap) (tableName : String) :
    Go (String × String × List Value) := do
  let query ← NewSqlQuery jm fieldsMap
  let sqlQuery := "SELECT " ++ query.Select ++ " FROM " ++ tableName ++ " WHERE 1=1"
  let whereClause := if query.Where != "" then " AND " ++ query.Where else ""
  let whereClause := whereClause ++ (query.OrderBy ++ " " ++ query.Limit ++ " " ++ query.Offset)
  pure (sqlQuery ++ whereClause, whereClause, query.Args)

/-! ## service.go -/

/-- One result row, `map[string]any`. -/
abbrev Row := List (String × Value)

/-- The four results of `repository` and of `Service.Get`. -/
structure QueryResult where
  response : List Row
  totalCount : Int
  size : Int
  err : Option ErrorResponseDTO
  deriving DecidableEq, Repr

/-- The service: the `repository` method of its repository, and its toggles. -/
structure Service where
  repo : JsonMap → QueryResult
  toggles : Option ToggleConfig

/-- The method `Service.Get`: its four results, and the requests it handed to
the repository (none, or the one request as `validateToggles` left it). -/
def Service.Get (s : Service) (jsonMap : JsonMap) : QueryResult × List JsonMap :=
  match validateToggles jsonMap s.toggles with
  | (_, some validationErr) =>
    ({ response := [], totalCount := 0, size := 0, err := some validationErr }, [])
  | (jsonMap, none) =>
    let r := s.repo jsonMap
    match r.err with
    | some err => ({ response := [], totalCount := 0, size := 0, err := some err }, [jsonMap])
    | none => ({ response := r.response, totalCount := r.totalCount, size := r.size, err := none },
               [jsonMap])

/-! ## sqlRepo.go -/

/-- The text of the count query that `countTotal` builds from the table name
and from the second result of `GetSqlQuery`. -/
def countTotalQuery (tableName : String) (whereClause : String) : String :=
  "SELECT COUNT(*) FROM " ++ tableName ++ " WHERE 1=1" ++ whereClause

/-- The count query of `sqlRepository.repository` for a request: the second
result of `GetSqlQuery`, handed to `countTotal`. -/
def repositoryCountQuery (fieldsMap : Option FieldsMap) (tableName : String) (jsonMap : JsonMap) :
    Go String :=
  match GetSqlQuery jsonMap fieldsMap tableName with
  | .ok (_, whereClause, _) => .ok (countTotalQuery tableName whereClause)
  | .error p => .error p

/-! ## helper.go, date and time -/

/-- Instants of time, the results of `time.Parse`. -/
abbrev Time := Int

/-- The library function `time.Parse(time.RFC3339, _)`: the instant of a text
in that layout, or `none` for its error. -/
abbrev TimeParser := String → Option Time

/-- The values of a BSON document: a value of the request stored as it is, a
pointer to a parsed time, a regular expression, an integer constant, a
document `bson.D` and an array `bson.A`. -/
inductive Bson where
  | value (v : Value)
  | timePtr (t : Time)
  | regex (pattern : String) (options : String)
  | int (n : Int)
  | doc (entries : List (String × Bson))
  | arr (elems : List Bson)

def isDateTimeFieldKey (k : String) (dateFieldKeys : StrMap) : Bool :=
  if dateFieldKeys.has k then true else false

/-- The function `parseDateTimeOrReturn`: a pointer to the parsed time for a
string that parses, the value itself otherwise. -/
def parseDateTimeOrReturn (parse : TimeParser) (val : Value) : Bson :=
  match val with
  | Value.str strVal =>
    match parse strVal with
    | some dateFilter => Bson.timePtr dateFilter
    | none => Bson.value val
  | _ => Bson.value val

def treatDateTime (parse : TimeParser) (k : String) (dateFields : StrMap) (val : Value) : Bson :=
  if isDateTimeFieldKey k dateFields then parseDateTimeOrReturn parse val else Bson.value val

/-! ## queryBuilder.go, the document-store compiler -/

/-- The struct `MongoQuery`; its field `Sort` is named `SortBy` here, `Sort`
being a reserved word. -/
structure MongoQuery where
  Filter : Option (List (String × Bson))
  Projection : Option (List (String × Bson))
  SortBy : Option (List (String × Bson))
  Limit : Int
  Offset : Int

/-- The loop of `getMongoProjection`. -/
def getMongoProjectionLoop (fm : Option FieldsMap) :
    List String → List (String × Bson) → Go (List (String × Bson))
  | [], projection => .ok projection
  | field :: rest, projection =>
    match fm with
    | none => .error Panic.nilDereference
    | some f =>
      getMongoProjectionLoop fm rest (projection ++ [(f.ProjectionFields.index field, Bson.int 1)])

/-- The function `getMongoProjection`; the slice is non-nil exactly when an
entry was appended. -/
def getMongoProjection (fm : Option FieldsMap) (jm : JsonMap) : Go (Option (List (String × Bson))) :=
  match getMongoProjectionLoop fm jm.ProjectionFields [] with
  | .error p => .error p
  | .ok projection => if !projection.isEmpty then .ok (some projection) else .ok none

/-- The switch of `getMongoSortCondition` on the direction token. -/
def mongoSortDirection (sortCondition : String) : Int :=
  if sortCondition == "ASC" then 1
  else if sortCondition == "DESC" then -1
  else 1

/-- The loop of `getMongoSortCondition`. -/
def getMongoSortConditionLoop (fm : Option FieldsMap) :
    List SortInput → List (String × Bson) → Go (List (String × Bson))
  | [], sort => .ok sort
  | sortInput :: rest, sort =>
    match fm with
    | none => .error Panic.nilDereference
    | some f =>
      getMongoSortConditionLoop fm rest
        (sort ++ [(f.SortingFields.index sortInput.Field,
                   Bson.int (mongoSortDirection sortInput.SortCondition))])

def getMongoSortCondition (fm : Option FieldsMap) (jm : JsonMap) :
    Go (Option (List (String × Bson))) :=
  match getMongoSortConditionLoop fm jm.SortConditions [] with
  | .error p => .error p
  | .ok sort => if !sort.isEmpty then .ok (some sort) else .ok none

/-- The inner loop of `addMongoSearchFilter` over the values of one field. -/
def addMongoSearchTerms (fm : Option FieldsMap) (key : String) :
    List Value → List Bson → Go (List Bson)
  | [], orFilters => .ok orFilters
  | value :: rest, orFilters =>
    match fm with
    | none => .error Panic.nilDereference
    | some f =>
      addMongoSearchTerms fm key rest
        (orFilters ++ [Bson.doc [(f.SearchFields.index key, Bson.regex (sprintV value) "i")]])

/-- The outer loop of `addMongoSearchFilter`. -/
def addMongoSearchLoop (fm : Option FieldsMap) :
    List (String × List Value) → List Bson → Go (List Bson)
  | [], filterArr => .ok filterArr
  | kv :: rest, filterArr =>
    match addMongoSearchTerms fm kv.1 kv.2 [] with
    | .error p => .error p
    | .ok orFilters =>
      if !orFilters.isEmpty then
        addMongoSearchLoop fm rest (filterArr ++ [Bson.doc [("$or", Bson.arr orFilters)]])
      else addMongoSearchLoop fm rest filterArr

def addMongoSearchFilter (filterArr : List Bson) (jm : JsonMap) (fm : Option FieldsMap) :
    Go (List Bson) :=
  addMongoSearchLoop fm jm.Search filterArr

/-- The loop `for _, value := range values` whose body is the assignment
`value = parseDateTimeOrReturn(value)`: the state is the slice; an iteration
computes the parsed value into the loop variable, a copy of the element, and
stores nothing into the slice. -/
def parseIntoLoopVariable (parse : TimeParser) (values : List Value) : List Value :=
  values.foldl (fun slice value => let _value := parseDateTimeOrReturn parse value; slice) values

/-- A list slot of `addMongoConditionFilter`: when the list is non-nil, the
date test reads `fm.DateTimeFieldKeys`, the loop above runs for a date field,
and `id: op: list` is appended. -/
def mongoListSlot (parse : TimeParser) (fm : Option FieldsMap) (k : String) (op : String)
    (slot : Option (List Value)) (condArr : List Bson) : Go (List Bson) :=
  match slot with
  | some values =>
    match fm with
    | none => .error Panic.nilDereference
    | some f =>
      let values :=
        if isDateTimeFieldKey k f.DateTimeFieldKeys then parseIntoLoopVariable parse values
        else values
      .ok (condArr ++ [Bson.doc [(f.ConditionFields.index k,
              Bson.doc [(op, Bson.arr (values.map Bson.value))])]])
  | none => .ok condArr

/-- A scalar slot of `addMongoConditionFilter`: when the operand is non-nil it
goes through `treatDateTime` and `id: op: operand` is appended. -/
def mongoScalarSlot (parse : TimeParser) (fm : Option FieldsMap) (k : String) (op : String)
    (slot : Value) (condArr : List Bson) : Go (List Bson) :=
  if slot != Value.nil then
    match fm with
    | none => .error Panic.nilDereference
    | some f =>
      .ok (condArr ++ [Bson.doc [(f.ConditionFields.index k,
              Bson.doc [(op, treatDateTime parse k f.DateTimeFieldKeys slot)])]])
  else .ok condArr

/-- The body of the loop of `addMongoConditionFilter` for one field. -/
def addMongoConditionStep (parse : TimeParser) (fm : Option FieldsMap) (k : String)
    (v : ConditionOperators) (condArr : List Bson) : Go (List Bson) := do
  let condArr ← mongoListSlot parse fm k "$in" v.ValuesToExactMatch condArr
  let condArr ← mongoScalarSlot parse fm k "$gte" v.GreaterOrEqual condArr
  let condArr ← mongoScalarSlot parse fm k "$gt" v.GreaterThan condArr
  let condArr ← mongoScalarSlot parse fm k "$lte" v.LowerOrEqual condArr
  let condArr ← mongoScalarSlot parse fm k "$lt" v.LowerThan condArr
  mongoListSlot parse fm k "$nin" v.ValuesToExclude condArr

/-- The loop of `addMongoConditionFilter`. -/
def addMongoConditionLoop (parse : TimeParser) (fm : Option FieldsMap) :
    List (String × ConditionOperators) → List Bson → Go (List Bson)
  | [], condArr => .ok condArr
  | kv :: rest, condArr =>
    match addMongoConditionStep parse fm kv.1 kv.2 condArr with
    | .error p => .error p
    | .ok condArr => addMongoConditionLoop parse fm rest condArr

def addMongoConditionFilter (parse : TimeParser) (condArr : List Bson) (jm : JsonMap)
    (fm : Option FieldsMap) : Go (List Bson) :=
  addMongoConditionLoop parse fm jm.Conditions condArr

/-- The function `getMongoFilter`; `filterArr` is non-nil exactly when an
element was appended to it. -/
def getMongoFilter (parse : TimeParser) (fm : Option FieldsMap) (jm : JsonMap) :
    Go (Option (List (String × Bson))) :=
  match addMongoSearchFilter [] jm fm with
  | .error p => .error p
  | .ok filterArr =>
    match addMongoConditionFilter parse [] jm fm with
    | .error p => .error p
    | .ok condArr =>
      let filterArr :=
        if condArr.length > 0 then filterArr ++ [Bson.doc [("$and", Bson.arr condArr)]]
        else filterArr
      if !filterArr.isEmpty then .ok (some [("$and", Bson.arr filterArr)]) else .ok none

def NewMongoQuery (parse : TimeParser) (jm : JsonMap) (fm : Option FieldsMap) : Go MongoQuery := do
  let filter ← getMongoFilter parse fm jm
  let sort ← getMongoSortCondition fm jm
  let projection ← getMongoProjection fm jm
  pure { Filter := filter, SortBy := sort, Projection := projection,
         Limit := jm.Pagination.Limit, Offset := jm.Pagination.Offset }

/-! ## constant.go, the engines; builder.go -/

def MONGO_ENGINE : String := "mongo"
def SQLITE_ENGINE : String := "sqlite3"
def MYSQL_ENGINE : String := "mysql"
def POSTGRES_ENGINE : String := "postgres"
def SQLSERVER_ENGINE : String := "sqlserver"
def ORACLE_ENGINE : String := "godror"
def CLICKHOUSE_ENGINE : String := "clickhouse"
def ATHENA_ENGINE : String := "athena"
def DYNAMODB_ENGINE : String := "dynamodb"
def AVATICA_ENGINE : String := "avatica"
def H2_ENGINE : String := "h2"
def HIVE_ENGINE : String := "hive"
def IGNITE_ENGINE : String := "ignite"
def IMPALA_ENGINE : String := "impala"
def COSMOSDB_ENGINE : String := "cosmos"
def COUCHBASE_ENGINE : String := "couchbase"
def DB2_ENGINE : String := "db2"
def DATABRICKS_ENGINE : String := "databricks"
def DUCKDB_ENGINE : String := "duckdb"
def EXASOL_ENGINE : String := "exasol"
def FIREBIRD_ENGINE : String := "firebirdsql"
def GENJI_ENGINE : String := "genji"
def BIGQUERY_ENGINE : String := "bigquery"
def SPANNER_ENGINE : String := "spanner"
def ADODB_ENGINE : String := "adodb"
def MAXCOMPUTE_ENGINE : String := "maxcompute"
def ODBC_ENGINE : String := "odbc"
def QL_ENGINE : String := "ql"
def ASE_ENGINE : String := "ase"
def HANA_ENGINE : String := "hdb"
def RESTSQL_ENGINE : String := "restsql"
def SNOWFLAKE_ENGINE : String := "snowflake"
def TRINO_ENGINE : String := "trino"
def VERTICA_ENGINE : String := "vertica"
def VITESS_ENGINE : String := "vitess"
def YDB_ENGINE : String := "ydb"
def YQL_ENGINE : String := "yql"

/-- The map `sqlDriverList`: every SQL engine mapped to itself. -/
def sqlDriverList : StrMap :=
  some [(SQLITE_ENGINE, SQLITE_ENGINE), (MYSQL_ENGINE, MYSQL_ENGINE),
    (POSTGRES_ENGINE, POSTGRES_ENGINE), (SQLSERVER_ENGINE, SQLSERVER_ENGINE),
    (ORACLE_ENGINE, ORACLE_ENGINE), (CLICKHOUSE_ENGINE, CLICKHOUSE_ENGINE),
    (ATHENA_ENGINE, ATHENA_ENGINE), (DYNAMODB_ENGINE, DYNAMODB_ENGINE),
    (AVATICA_ENGINE, AVATICA_ENGINE), (H2_ENGINE, H2_ENGINE), (HIVE_ENGINE, HIVE_ENGINE),
    (IGNITE_ENGINE, IGNITE_ENGINE), (IMPALA_ENGINE, IMPALA_ENGINE),
    (COSMOSDB_ENGINE, COSMOSDB_ENGINE), (COUCHBASE_ENGINE, COUCHBASE_ENGINE),
    (DB2_ENGINE, DB2_ENGINE), (DATABRICKS_ENGINE, DATABRICKS_ENGINE),
    (DUCKDB_ENGINE, DUCKDB_ENGINE), (EXASOL_ENGINE, EXASOL_ENGINE),
    (FIREBIRD_ENGINE, FIREBIRD_ENGINE), (GENJI_ENGINE, GENJI_ENGINE),
    (BIGQUERY_ENGINE, BIGQUERY_ENGINE), (SPANNER_ENGINE, SPANNER_ENGINE),
    (ADODB_ENGINE, ADODB_ENGINE), (MAXCOMPUTE_ENGINE, MAXCOMPUTE_ENGINE),
    (ODBC_ENGINE, ODBC_ENGINE), (QL_ENGINE, QL_ENGINE), (ASE_ENGINE, ASE_ENGINE),
    (HANA_ENGINE, HANA_ENGINE), (RESTSQL_ENGINE, RESTSQL_ENGINE),
    (SNOWFLAKE_ENGINE, SNOWFLAKE_ENGINE), (TRINO_ENGINE, TRINO_ENGINE),
    (VERTICA_ENGINE, VERTICA_ENGINE), (VITESS_ENGINE, VITESS_ENGINE),
    (YDB_ENGINE, YDB_ENGINE), (YQL_ENGINE, YQL_ENGINE)]

/-- The repository constructor that the switch of `NewTesoQL` calls. -/
inductive Repository where
  | mongoRepository
  | sqlRepository
  deriving DecidableEq, Repr

/-- The switch of `NewTesoQL` on `cfg.Engine`: the cases `"mongo"` and
`sqlDriverList[cfg.Engine]` are compared with the engine in this order, and
the default case panics with its message.  What the selected constructor does
with the connection is left out. -/
def NewTesoQL (cfg : Config) : Except String Repository :=
  if cfg.Engine == "mongo" then .ok Repository.mongoRepository
  else if cfg.Engine == sqlDriverList.index cfg.Engine then .ok Repository.sqlRepository
  else .error "DB connection could not have been established!"

/-! ## Predicates of the statements -/

/-- Some search key of the request has no entry in `SearchFields`. -/
def searchKeyAbsent (fm : FieldsMap) (jm : JsonMap) : Bool :=
  jm.Search.any (fun kv => !fm.SearchFields.has kv.1)

/-- Some projection key of the request has no entry in `ProjectionFields`. -/
def projectionKeyAbsent (fm : FieldsMap) (jm : JsonMap) : Bool :=
  jm.ProjectionFields.any (fun field => !fm.ProjectionFields.has field)

/-- Some condition key of the request has no entry in `ConditionFields`. -/
def conditionKeyAbsent (fm : FieldsMap) (jm : JsonMap) : Bool :=
  jm.Conditions.any (fun kv => !fm.ConditionFields.has kv.1)

/-- Some sort entry of the request names a field with no entry in `SortingFields`. -/
def sortKeyAbsent (fm : FieldsMap) (jm : JsonMap) : Bool :=
  jm.SortConditions.any (fun sortInput => !fm.SortingFields.has sortInput.Field)

/-- The direction test of `validateSorting`. -/
def directionOk (sortInput : SortInput) : Bool :=
  sortInput.SortCondition == "ASC" || sortInput.SortCondition == "DESC"

/-- Every key of the request has an entry in the matching mapping of the
registry of `cfg`; a nil registry has no entries. -/
def allKeysRegistered (cfg : Config) (jm : JsonMap) : Bool :=
  match cfg.FieldsMap with
  | some fm =>
    !searchKeyAbsent fm jm && !projectionKeyAbsent fm jm &&
      !conditionKeyAbsent fm jm && !sortKeyAbsent fm jm
  | none =>
    jm.Search.isEmpty && jm.ProjectionFields.isEmpty &&
      jm.Conditions.isEmpty && jm.SortConditions.isEmpty

/-- The bounds the clamp is to establish, for the limit bound `upperBound`. -/
def paginationInBounds (upperBound : Int) (p : Pagination) : Prop :=
  0 ≤ p.Offset ∧ p.Offset ≤ 500 ∧ 0 < p.Limit ∧ p.Limit ≤ upperBound

/-! ### Sample data -/

def noOperators : ConditionOperators :=
  { GreaterThan := Value.nil, GreaterOrEqual := Value.nil, ValuesToExactMatch := none,
    LowerThan := Value.nil, LowerOrEqual := Value.nil, ValuesToExclude := none }

def emptyRequest : JsonMap :=
  { Search := [], ProjectionFields := [], SortConditions := [], Conditions := [],
    Pagination := { Limit := 0, Offset := 0 }, TotalCount := false,
    SuppressDataResponse := false }

/-- A registry with the entries `age -> u.age` and `name -> u.full_name`. -/
def userFields : FieldsMap :=
  { DateTimeFieldKeys := some [],
    SearchFields := some [("name", "u.full_name"), ("city", "u.city")],
    SortingFields := some [("name", "u.full_name")],
    ProjectionFields := some [("name", "u.full_name"), ("age", "u.age")],
    ConditionFields := some [("age", "u.age")] }

def userConfig : Config :=
  { Engine := "mysql", ConnectionConfig := none, Toggles := none, FieldsMap := some userFields,
    Pagination := some { LimitUpperBound := 50 }, PrintSqlQuery := false }

/-- The request `conditions: age: greaterOrEqual: 21`, sorted by `name ASC`,
with `limit 0` and `offset -5`. -/
def adultsRequest : JsonMap :=
  { emptyRequest with
    Conditions := [("age", { noOperators with GreaterOrEqual := Value.int 21 })],
    SortConditions := [{ Field := "name", SortCondition := "ASC" }],
    Pagination := { Limit := 0, Offset := -5 } }

/-- A request that searches two registered fields and sorts by the
unregistered field `ghost`. -/
def ghostSortRequest : JsonMap :=
  { emptyRequest with
    Search := [("name", [Value.str "ann"]), ("city", [Value.str "izmir"])],
    SortConditions := [{ Field := "ghost", SortCondition := "ASC" }] }

/-- A request that sorts by the registered field `name` in direction `asc`. -/
def lowerCaseSortRequest : JsonMap :=
  { emptyRequest with SortConditions := [{ Field := "name", SortCondition := "asc" }] }

/-- The capabilities that a flag of `ToggleConfig` disables as a whole. -/
inductive Capability where
  | search
  | projection
  | sorting
  | conditioning
  | pagination
  deriving DecidableEq, Repr

/-- The toggle error code of a capability. -/
def Capability.code : Capability → Int
  | .search => 400006
  | .projection => 400007
  | .sorting => 400005
  | .conditioning => 400008
  | .pagination => 400009

/-- The request uses the capability. -/
def usesCapability (c : Capability) (jm : JsonMap) : Bool :=
  match c with
  | .search => decide (jm.Search ≠ [])
  | .projection => decide (jm.ProjectionFields ≠ [])
  | .sorting => decide (jm.SortConditions ≠ [])
  | .conditioning => decide (jm.Conditions ≠ [])
  | .pagination => decide (jm.Pagination.Limit > 0 ∨ jm.Pagination.Offset > 0)

/-- No operator flag and no direction flag is set. -/
def noFineToggle (t : ToggleConfig) : Bool :=
  (match t.SortingToggles with
   | some st => !st.DisableHighToLow && !st.DisableLowToHigh
   | none => true) &&
  (match t.ConditioningToggles with
   | some ct =>
     !ct.DisableGreaterThan && !ct.DisableGreaterOrEqual && !ct.DisableValuesToExactMatch &&
       !ct.DisableLowerThan && !ct.DisableLowerOrEqual && !ct.DisableValuesToExclude
   | none => true)

/-- The Disable flag of the capability `c` is the only flag of `t` that is set. -/
def onlyFlag (c : Capability) (t : ToggleConfig) : Bool :=
  (t.DisableSearch == decide (c = .search)) &&
  (t.DisableProjection == decide (c = .projection)) &&
  (t.DisableSorting == decide (c = .sorting)) &&
  (t.DisableConditioning == decide (c = .conditioning)) &&
  (t.DisablePagination == decide (c = .pagination)) &&
  !t.DisableTotalCount && noFineToggle t

/-- The operator codes of the slots of `ops` that are present (non-nil) and
whose flag is set in `ct`. -/
def disabledSlots (ct : ConditioningToggles) (ops : ConditionOperators) : List Int :=
  (if ct.DisableGreaterThan && ops.GreaterThan != Value.nil then [400010] else []) ++
  (if ct.DisableGreaterOrEqual && ops.GreaterOrEqual != Value.nil then [400011] else []) ++
  (if ct.DisableLowerThan && ops.LowerThan != Value.nil then [400012] else []) ++
  (if ct.DisableLowerOrEqual && ops.LowerOrEqual != Value.nil then [400013] else []) ++
  (if ct.DisableValuesToExclude && ops.ValuesToExclude.isSome then [400014] else []) ++
  (if ct.DisableValuesToExactMatch && ops.ValuesToExactMatch.isSome then [400015] else [])

/-- A policy with no flag set. -/
def noToggles : ToggleConfig :=
  { DisableSearch := false, DisableProjection := false, DisableSorting := false,
    DisableConditioning := false, DisablePagination := false, DisableTotalCount := false,
    SortingToggles := some { DisableHighToLow := false, DisableLowToHigh := false },
    ConditioningToggles := some
      { DisableGreaterThan := false, DisableGreaterOrEqual := false,
        DisableValuesToExactMatch := false, DisableLowerThan := false,
        DisableLowerOrEqual := false, DisableValuesToExclude := false } }

/-- The policy whose only set flag is `ConditioningToggles.DisableGreaterOrEqual`. -/
def greaterOrEqualOff : ToggleConfig :=
  { noToggles with
    ConditioningToggles := some
      { DisableGreaterThan := false, DisableGreaterOrEqual := true,
        DisableValuesToExactMatch := false, DisableLowerThan := false,
        DisableLowerOrEqual := false, DisableValuesToExclude := false } }

/-- The policy whose only set flag is `DisableSearch`. -/
def searchOff : ToggleConfig := { noToggles with DisableSearch := true }

/-! ### The clauses of the where text -/

/-- The number of `?` characters of a text. -/
def countQ (s : String) : Nat := s.toList.count '?'

/-- The trusted identifiers of a mapping. -/
def StrMap.values (m : StrMap) : List String :=
  match m with
  | some kvs => kvs.map (fun kv => kv.2)
  | none => []

/-- No trusted identifier of the search and condition mappings contains `?`. -/
def identifiersClean (fm : FieldsMap) : Bool :=
  fm.SearchFields.values.all (fun v => countQ v == 0) &&
    fm.ConditionFields.values.all (fun v => countQ v == 0)

/-- The argument of a LIKE term: the value printed between two `%`. -/
def likeArg (v : Value) : Value := Value.str ("%" ++ sprintV v ++ "%")

/-- The LIKE group of a search field with identifier `id`, and its values. -/
def searchGroup (id : String) (values : List Value) : String × List Value :=
  ("(" ++ stringsJoin (values.map (fun _ => id ++ " LIKE ?")) " OR " ++ ")",
   values.map likeArg)

/-- The clauses of the search map: one group per field with at least one value. -/
def searchClauses (fm : FieldsMap) (search : List (String × List Value)) :
    List (String × List Value) :=
  (search.filter (fun kv => !kv.2.isEmpty)).map
    (fun kv => searchGroup (fm.SearchFields.index kv.1) kv.2)

/-- The clause of a list slot: `id IN (?, ..., ?)` with the list elements, when
the list is non-nil and non-empty. -/
def listClause (id : String) (op : String) (slot : Option (List Value)) :
    List (String × List Value) :=
  match slot with
  | some (v :: vs) =>
    [(id ++ " " ++ op ++ " (" ++ stringsJoin ((v :: vs).map (fun _ => "?")) ", " ++ ")", v :: vs)]
  | _ => []

/-- The clause of a scalar slot: `id op ?` with the single operand, when it is
non-nil. -/
def scalarClause (id : String) (op : String) (slot : Value) : List (String × List Value) :=
  if slot = Value.nil then [] else [(id ++ " " ++ op ++ " ?", [slot])]

/-- The clauses of one condition field, in the order in which they are emitted. -/
def fieldClauses (id : String) (c : ConditionOperators) : List (String × List Value) :=
  listClause id "IN" c.ValuesToExactMatch ++ scalarClause id ">=" c.GreaterOrEqual ++
    scalarClause id ">" c.GreaterThan ++ scalarClause id "<=" c.LowerOrEqual ++
    scalarClause id "<" c.LowerThan ++ listClause id "NOT IN" c.ValuesToExclude

/-- The clauses of the where text with the values of each. -/
def sqlClauses (fm : FieldsMap) (jm : JsonMap) : List (String × List Value) :=
  searchClauses fm jm.Search ++
    jm.Conditions.flatMap (fun kv => fieldClauses (fm.ConditionFields.index kv.1) kv.2)

/-- The where text of a list of clauses. -/
def clausesText (cl : List (String × List Value)) : String :=
  stringsJoin (cl.map (fun c => c.1)) " AND "

/-- The arguments of a list of clauses. -/
def clausesArgs (cl : List (String × List Value)) : List Value :=
  (cl.map (fun c => c.2)).flatten

/-- A request with a search over two values and three conditions on `age`. -/
def mixedRequest : JsonMap :=
  { emptyRequest with
    Search := [("name", [Value.str "ann", Value.int 7])],
    Conditions := [("age", { noOperators with
      GreaterOrEqual := Value.int 21, LowerThan := Value.int 65,
      ValuesToExclude := some [Value.int 30, Value.int 40] })] }

/-- A registry whose search identifier contains a `?`. -/
def questionFields : FieldsMap :=
  { DateTimeFieldKeys := none, SearchFields := some [("q", "is_it?")], SortingFields := none,
    ProjectionFields := none, ConditionFields := none }

/-- A request that searches the field `q` for `x`. -/
def questionRequest : JsonMap :=
  { emptyRequest with Search := [("q", [Value.str "x"])] }

/-- A repository that finds no rows. -/
def idleRepository : JsonMap → QueryResult :=
  fun _ => { response := [], totalCount := 0, size := 0, err := none }

/-- The configuration `DefaultConfig` of constant.go: no registry. -/
def DefaultConfig : Config :=
  { Engine := "mongo", ConnectionConfig := none, Toggles := some noToggles, FieldsMap := none,
    Pagination := some { LimitUpperBound := 50 }, PrintSqlQuery := false }

/-- A time parser that knows the instant of one RFC3339 text. -/
def sampleParser : TimeParser :=
  fun s => if s = "2024-01-02T03:04:05Z" then some 1704164645 else none

/-- A request that searches the field `name` for `ann`. -/
def nameSearchRequest : JsonMap :=
  { emptyRequest with Search := [("name", [Value.str "ann"])] }

/-- The request names at least one client key. -/
def referencesKey (jm : JsonMap) : Bool :=
  !jm.Search.isEmpty || !jm.ProjectionFields.isEmpty ||
    !jm.Conditions.isEmpty || !jm.SortConditions.isEmpty

/-- A registry whose five mappings are nil. -/
def nilMappings : FieldsMap :=
  { DateTimeFieldKeys := none, SearchFields := none, SortingFields := none,
    ProjectionFields := none, ConditionFields := none }

/-- A registry whose five mappings are empty and non-nil. -/
def emptyMappings : FieldsMap :=
  { DateTimeFieldKeys := some [], SearchFields := some [], SortingFields := some [],
    ProjectionFields := some [], ConditionFields := some [] }

/-- The registry of the `age` example: `age -> u.age` for conditions and
`name -> u.full_name` for sorting. -/
def ageNameFields : FieldsMap :=
  { DateTimeFieldKeys := none, SearchFields := none,
    SortingFields := some [("name", "u.full_name")],
    ProjectionFields := none, ConditionFields := some [("age", "u.age")] }

/-- The configuration of the `age` example: bound 50, no flag set. -/
def ageNameConfig : Config :=
  { Engine := "mysql", ConnectionConfig := none, Toggles := some noToggles,
    FieldsMap := some ageNameFields, Pagination := some { LimitUpperBound := 50 },
    PrintSqlQuery := false }

/-- The request of the `age` example with limit 10 and the given offset. -/
def adultsPage (offset : Int) : JsonMap :=
  { adultsRequest with Pagination := { Limit := 10, Offset := offset } }

/-! ### The clauses of the document-store filter -/

/-- The clause of a list slot of the filter: `id: op: list`, the list as the
request gives it, when the list is non-nil. -/
def mongoListClause (fm : FieldsMap) (k : String) (op : String) (slot : Option (List Value)) :
    List Bson :=
  match slot with
  | some values =>
    [Bson.doc [(fm.ConditionFields.index k, Bson.doc [(op, Bson.arr (values.map Bson.value))])]]
  | none => []

/-- The clause of a scalar slot of the filter: `id: op: operand`, the operand
parsed for a date field, when the operand is non-nil. -/
def mongoScalarClause (parse : TimeParser) (fm : FieldsMap) (k : String) (op : String)
    (slot : Value) : List Bson :=
  if slot = Value.nil then []
  else [Bson.doc [(fm.ConditionFields.index k,
          Bson.doc [(op, treatDateTime parse k fm.DateTimeFieldKeys slot)])]]

/-- The clauses of one condition field, in the order in which they are emitted. -/
def mongoFieldClauses (parse : TimeParser) (fm : FieldsMap) (k : String)
    (c : ConditionOperators) : List Bson :=
  mongoListClause fm k "$in" c.ValuesToExactMatch ++
    mongoScalarClause parse fm k "$gte" c.GreaterOrEqual ++
    mongoScalarClause parse fm k "$gt" c.GreaterThan ++
    mongoScalarClause parse fm k "$lte" c.LowerOrEqual ++
    mongoScalarClause parse fm k "$lt" c.LowerThan ++
    mongoListClause fm k "$nin" c.ValuesToExclude

/-- The `$or` groups of the search map: one per field with at least one value. -/
def mongoSearchGroups (fm : FieldsMap) (search : List (String × List Value)) : List Bson :=
  (search.filter (fun kv => !kv.2.isEmpty)).map (fun kv =>
    Bson.doc [("$or", Bson.arr (kv.2.map (fun v =>
      Bson.doc [(fm.SearchFields.index kv.1, Bson.regex (sprintV v) "i")])))])

/-- A registry with the date field `created -> created_at`. -/
def dateFields : FieldsMap :=
  { DateTimeFieldKeys := some [("created", "created_at")], SearchFields := none,
    SortingFields := none, ProjectionFields := none,
    ConditionFields := some [("created", "created_at"), ("age", "u.age"), ("city", "u.city")] }

/-- A request with the timestamp `2024-01-02T03:04:05Z` in the exact-match
list, as the greater-or-equal operand and in the exclusion list of `created`. -/
def datedRequest : JsonMap :=
  { emptyRequest with
    Conditions := [("created", { noOperators with
      ValuesToExactMatch := some [Value.str "2024-01-02T03:04:05Z"],
      GreaterOrEqual := Value.str "2024-01-02T03:04:05Z",
      ValuesToExclude := some [Value.str "2024-01-02T03:04:05Z"] })] }

/-- A request with the condition `created >= 2024-01-02T03:04:05Z`. -/
def sinceRequest : JsonMap :=
  { emptyRequest with
    Conditions := [("created", { noOperators with
      GreaterOrEqual := Value.str "2024-01-02T03:04:05Z" })] }

/-- A request with an exact-match list on `city` and a lower bound on `age`. -/
def cityAgeRequest : JsonMap :=
  { emptyRequest with
    Conditions :=
      [("city", { noOperators with ValuesToExactMatch := some [Value.str "izmir"] }),
       ("age", { noOperators with GreaterOrEqual := Value.int 21 })] }

/-- The operators of a field that has only the exact-match list `l`. -/
def onlyExactMatch (l : List Value) : ConditionOperators :=
  { noOperators with ValuesToExactMatch := some l }

/-- The operators of a field that has only the greater-or-equal operand `v`. -/
def onlyGreaterOrEqual (v : Value) : ConditionOperators :=
  { noOperators with GreaterOrEqual := v }

/-- The `$in` clause of the field `a` with the list `l`. -/
def inClause (fm : FieldsMap) (a : String) (l : List Value) : Bson :=
  Bson.doc [(fm.ConditionFields.index a, Bson.doc [("$in", Bson.arr (l.map Bson.value))])]

/-- The `$gte` clause of the field `b` with the operand `v`. -/
def gteClause (fm : FieldsMap) (b : String) (v : Value) : Bson :=
  Bson.doc [(fm.ConditionFields.index b, Bson.doc [("$gte", Bson.value v)])]

/-- The number of clauses that the operators of one field emit: one for each
non-nil scalar operand and one for each list that is non-nil and non-empty. -/
def emittedSlots (c : ConditionOperators) : Nat :=
  (match c.ValuesToExactMatch with
   | some (_ :: _) => 1
   | _ => 0) +
  (if c.GreaterOrEqual = Value.nil then 0 else 1) +
  (if c.GreaterThan = Value.nil then 0 else 1) +
  (if c.LowerOrEqual = Value.nil then 0 else 1) +
  (if c.LowerThan = Value.nil then 0 else 1) +
  (match c.ValuesToExclude with
   | some (_ :: _) => 1
   | _ => 0)

/-- The text `id op (?, ..., ?)` with `n` placeholders. -/
def listComparison (id : String) (op : String) (n : Nat) : String :=
  id ++ " " ++ op ++ " (" ++ stringsJoin (List.replicate n "?") ", " ++ ")"

/-- The comparisons of one field with identifier `id`, in the order in which
they are emitted. -/
def conditionTexts (id : String) (c : ConditionOperators) : List String :=
  (match c.ValuesToExactMatch with
   | some (v :: vs) => [listComparison id "IN" (v :: vs).length]
   | _ => []) ++
  (if c.GreaterOrEqual = Value.nil then [] else [id ++ " >= ?"]) ++
  (if c.GreaterThan = Value.nil then [] else [id ++ " > ?"]) ++
  (if c.LowerOrEqual = Value.nil then [] else [id ++ " <= ?"]) ++
  (if c.LowerThan = Value.nil then [] else [id ++ " < ?"]) ++
  (match c.ValuesToExclude with
   | some (v :: vs) => [listComparison id "NOT IN" (v :: vs).length]
   | _ => [])

/-- The policy whose only set flag is `ConditioningToggles.DisableValuesToExactMatch`. -/
def exactMatchOff : ToggleConfig :=
  { noToggles with
    ConditioningToggles := some
      { DisableGreaterThan := false, DisableGreaterOrEqual := false,
        DisableValuesToExactMatch := true, DisableLowerThan := false,
        DisableLowerOrEqual := false, DisableValuesToExclude := false } }

/-- A request whose only condition is an empty, non-nil exact-match list on `age`. -/
def emptyListRequest : JsonMap :=
  { emptyRequest with Conditions := [("age", { noOperators with ValuesToExactMatch := some [] })] }

/-- The LIKE group of `n` terms on the identifier `id`. -/
def likeGroup (id : String) (n : Nat) : String :=
  "(" ++ stringsJoin (List.replicate n (id ++ " LIKE ?")) " OR " ++ ")"

/-- A request that searches `name` for two values and `city` for none. -/
def twoFieldSearch : JsonMap :=
  { emptyRequest with
    Search := [("name", [Value.str "ann", Value.int 7]), ("city", [])] }

/-- The sort entry has a direction that the sorting toggles disable: `ASC`
under `DisableLowToHigh`, `DESC` under `DisableHighToLow`. -/
def directionDisabled (st : SortingToggles) (sortInput : SortInput) : Bool :=
  (sortInput.SortCondition == "ASC" && st.DisableLowToHigh) ||
    (sortInput.SortCondition == "DESC" && st.DisableHighToLow)

/-- The request uses no capability: nothing in search, projection, sort and
conditions, and neither a limit nor an offset above 0. -/
def usesNothing (jm : JsonMap) : Bool :=
  jm.Search.isEmpty && jm.ProjectionFields.isEmpty && jm.SortConditions.isEmpty &&
    jm.Conditions.isEmpty && decide (jm.Pagination.Limit ≤ 0) &&
    decide (jm.Pagination.Offset ≤ 0)

/-- A request that projects `name` and `age` and sorts by `name` descending. -/
def projectedRequest : JsonMap :=
  { emptyRequest with
    ProjectionFields := ["name", "age"],
    SortConditions := [{ Field := "name", SortCondition := "DESC" },
                       { Field := "name", SortCondition := "ASC" }] }

/-- The policy whose only set flag is `SortingToggles.DisableLowToHigh`. -/
def lowToHighOff : ToggleConfig :=
  { noToggles with
    SortingToggles := some { DisableHighToLow := false, DisableLowToHigh := true } }

/-- A policy with every flag set. -/
def allTogglesOff : ToggleConfig :=
  { DisableSearch := true, DisableProjection := true, DisableSorting := true,
    DisableConditioning := true, DisablePagination := true, DisableTotalCount := true,
    SortingToggles := some { DisableHighToLow := true, DisableLowToHigh := true },
    ConditioningToggles := some
      { DisableGreaterThan := true, DisableGreaterOrEqual := true,
        DisableValuesToExactMatch := true, DisableLowerThan := true,
        DisableLowerOrEqual := true, DisableValuesToExclude := true } }

/-- The policy whose only set flag is `DisablePagination`. -/
def paginationOff : ToggleConfig := { noToggles with DisablePagination := true }

/-- A repository whose result carries one row, a size and an error. -/
def failingRepository : JsonMap → QueryResult :=
  fun _ => { response := [[("id", Value.int 1)]], totalCount := 0, size := 1,
             err := some (newResponse "TESOQL_SQL_ERROR" "count failed" 500004) }

/-- The keys of a mapping. -/
def StrMap.keys (m : StrMap) : List String :=
  match m with
  | some kvs => kvs.map (fun kv => kv.1)
  | none => []

/-- A configuration with the empty engine and a connection. -/
def emptyEngineConfig : Config :=
  { Engine := "", ConnectionConfig := some { DBName := "app", TableName := "users",
                                             ConnectionString := "" },
    Toggles := some noToggles, FieldsMap := none,
    Pagination := some { LimitUpperBound := 50 }, PrintSqlQuery := false }

/-- A request that projects the unregistered keys `ghost` and `phantom`. -/
def ghostProjection : JsonMap :=
  { emptyRequest with ProjectionFields := ["ghost", "phantom"] }

/-- A request that projects `name`, the unregistered key `ghost`, and `age`. -/
def mixedProjection : JsonMap :=
  { emptyRequest with ProjectionFields := ["name", "ghost", "age"] }

/-! ## Field validation -/

theorem validateSearchLoop_none (m : StrMap) (l : List (String × List Value)) :
    validateSearchLoop m l = none ↔ l.any (fun kv => !m.has kv.1) = false := by
  induction l with
  | nil => simp [validateSearchLoop]
  | cons kv rest ih =>
    by_cases h : m.has kv.1 = true
    · simp [validateSearchLoop, h, ih]
    · simp [validateSearchLoop, h]

theorem validateSearchLoop_some (m : StrMap) (l : List (String × List Value))
    (e : ErrorResponseDTO) (h : validateSearchLoop m l = some e) :
    e.ErrorType = TESOQL_VALIDATION_ERROR ∧ e.ErrorCode = SEARCHABLE_ERR_CODE := by
  induction l with
  | nil => simp [validateSearchLoop] at h
  | cons kv rest ih =>
    by_cases hk : m.has kv.1 = true
    · simp [validateSearchLoop, hk] at h
      exact ih h
    · simp [validateSearchLoop, hk] at h
      subst h
      simp [newResponse]

theorem validateProjectionLoop_none (m : StrMap) (l : List String) :
    validateProjectionLoop m l = none ↔ l.any (fun field => !m.has field) = false := by
  induction l with
  | nil => simp [validateProjectionLoop]
  | cons kv rest ih =>
    by_cases h : m.has kv = true
    · simp [validateProjectionLoop, h, ih]
    · simp [validateProjectionLoop, h]

theorem validateProjectionLoop_some (m : StrMap) (l : List String)
    (e : ErrorResponseDTO) (h : validateProjectionLoop m l = some e) :
    e.ErrorType = TESOQL_VALIDATION_ERROR ∧ e.ErrorCode = PROJECTION_ERR_CODE := by
  induction l with
  | nil => simp [validateProjectionLoop] at h
  | cons kv rest ih =>
    by_cases hk : m.has kv = true
    · simp [validateProjectionLoop, hk] at h
      exact ih h
    · simp [validateProjectionLoop, hk] at h
      subst h
      simp [newResponse]

theorem validateConditionsLoop_none (f : FieldsMap) (hc : f.ConditionFields.isSome = true)
    (l : List (String × ConditionOperators)) :
    validateConditionsLoop (some f) l = none ↔
      l.any (fun kv => !f.ConditionFields.has kv.1) = false := by
  induction l with
  | nil => simp [validateConditionsLoop]
  | cons kv rest ih =>
    by_cases h : f.ConditionFields.has kv.1 = true
    · simp [validateConditionsLoop, h, ih]
    · simp [validateConditionsLoop, h, hc]

theorem validateConditionsLoop_some (fm : Option FieldsMap)
    (l : List (String × ConditionOperators))
    (e : ErrorResponseDTO) (h : validateConditionsLoop fm l = some e) :
    e.ErrorType = TESOQL_VALIDATION_ERROR ∧ e.ErrorCode = CONDITION_ERR_CODE := by
  induction l with
  | nil => simp [validateConditionsLoop] at h
  | cons kv rest ih =>
    cases fm with
    | none => simp [validateConditionsLoop] at h; exact ih h
    | some f =>
      simp only [validateConditionsLoop] at h
      split at h
      · simp at h; subst h; simp [newResponse]
      · exact ih h

theorem directionOk_iff (s : SortInput) :
    (s.SortCondition != "ASC" && s.SortCondition != "DESC") = !directionOk s := by
  simp [directionOk, bne]

theorem validateSortingLoop_total (f : FieldsMap) (l : List SortInput) :
    ∃ r, validateSortingLoop (some f) l = .ok r := by
  induction l with
  | nil => exact ⟨none, rfl⟩
  | cons s rest ih =>
    simp only [validateSortingLoop]
    split
    · exact ⟨_, rfl⟩
    · split
      · exact ⟨_, rfl⟩
      · exact ih

theorem validateSortingLoop_none (f : FieldsMap) (l : List SortInput) :
    validateSortingLoop (some f) l = .ok none ↔
      l.all (fun s => f.SortingFields.has s.Field && directionOk s) = true := by
  induction l with
  | nil => simp [validateSortingLoop]
  | cons s rest ih =>
    simp only [validateSortingLoop, directionOk_iff]
    by_cases hk : f.SortingFields.has s.Field = true
    · by_cases hd : directionOk s = true
      · simp [hk, hd, ih]
      · simp [hk, hd]
    · simp [hk]

theorem validateSortingLoop_some (fm : Option FieldsMap) (l : List SortInput)
    (e : ErrorResponseDTO) (h : validateSortingLoop fm l = .ok (some e)) :
    e.ErrorType = TESOQL_VALIDATION_ERROR ∧ e.ErrorCode = SORTABLE_ERR_CODE := by
  induction l with
  | nil => simp [validateSortingLoop] at h
  | cons s rest ih =>
    cases fm with
    | none => simp [validateSortingLoop] at h
    | some f =>
      simp only [validateSortingLoop] at h
      split at h
      · simp at h; subst h; simp [newResponse]
      · split at h
        · simp at h; subst h; simp [newResponse]
        · exact ih h
theorem any_false_of_not {α : Type} (l : List α) (p : α → Bool) (h : ¬ l.any p = true) :
    l.any p = false := by
  simpa using h

theorem perm_any {α : Type} {l₁ l₂ : List α} (p : α → Bool) (h : l₁.Perm l₂) :
    l₁.any p = l₂.any p := by
  rw [Bool.eq_iff_iff]
  simp only [List.any_eq_true]
  constructor
  · rintro ⟨x, hx, hpx⟩; exact ⟨x, h.mem_iff.1 hx, hpx⟩
  · rintro ⟨x, hx, hpx⟩; exact ⟨x, h.mem_iff.2 hx, hpx⟩

theorem validate_absent_core (cfg : Config) (fm : FieldsMap) (jm : JsonMap)
    (hfm : cfg.FieldsMap = some fm)
    (hs : fm.SearchFields.isSome = true) (hp : fm.ProjectionFields.isSome = true)
    (hc : fm.ConditionFields.isSome = true)
    (habs : (searchKeyAbsent fm jm || projectionKeyAbsent fm jm ||
              conditionKeyAbsent fm jm || sortKeyAbsent fm jm) = true) :
    ∃ e, Validate jm cfg = .ok (jm, some e) ∧ e.ErrorType = TESOQL_VALIDATION_ERROR ∧
      ((e.ErrorCode = 400002 ∧ searchKeyAbsent fm jm = true) ∨
       (e.ErrorCode = 400003 ∧ projectionKeyAbsent fm jm = true) ∨
       (e.ErrorCode = 400004 ∧ conditionKeyAbsent fm jm = true) ∨
       (e.ErrorCode = 400001 ∧ sortKeyAbsent fm jm = true)) := by
  cases h1 : validateSearchLoop fm.SearchFields jm.Search with
  | some e =>
    have hab : searchKeyAbsent fm jm = true := by
      by_contra hn
      have := (validateSearchLoop_none fm.SearchFields jm.Search).2 (any_false_of_not _ _ hn)
      rw [h1] at this; cases this
    obtain ⟨ht, hcode⟩ := validateSearchLoop_some _ _ e h1
    refine ⟨e, ?_, ht, Or.inl ⟨by simpa [SEARCHABLE_ERR_CODE] using hcode, hab⟩⟩
    simp [Validate, hfm, validateSearchAndProjection, hs, h1]
  | none =>
    have hs0 : searchKeyAbsent fm jm = false := (validateSearchLoop_none _ _).1 h1
    cases h2 : validateProjectionLoop fm.ProjectionFields jm.ProjectionFields with
    | some e =>
      have hab : projectionKeyAbsent fm jm = true := by
        by_contra hn
        have := (validateProjectionLoop_none fm.ProjectionFields jm.ProjectionFields).2
          (any_false_of_not _ _ hn)
        rw [h2] at this; cases this
      obtain ⟨ht, hcode⟩ := validateProjectionLoop_some _ _ e h2
      refine ⟨e, ?_, ht, Or.inr (Or.inl ⟨by simpa [PROJECTION_ERR_CODE] using hcode, hab⟩)⟩
      simp [Validate, hfm, validateSearchAndProjection, hs, hp, h1, h2]
    | none =>
      have hp0 : projectionKeyAbsent fm jm = false := (validateProjectionLoop_none _ _).1 h2
      cases h3 : validateConditionsLoop (some fm) jm.Conditions with
      | some e =>
        have hab : conditionKeyAbsent fm jm = true := by
          by_contra hn
          have := (validateConditionsLoop_none fm hc jm.Conditions).2 (any_false_of_not _ _ hn)
          rw [h3] at this; cases this
        obtain ⟨ht, hcode⟩ := validateConditionsLoop_some _ _ e h3
        refine ⟨e, ?_, ht,
          Or.inr (Or.inr (Or.inl ⟨by simpa [CONDITION_ERR_CODE] using hcode, hab⟩))⟩
        simp [Validate, hfm, validateSearchAndProjection, hs, hp, h1, h2, validateConditions, h3]
      | none =>
        have hc0 : conditionKeyAbsent fm jm = false := (validateConditionsLoop_none fm hc _).1 h3
        have hab : sortKeyAbsent fm jm = true := by simpa [hs0, hp0, hc0] using habs
        obtain ⟨r, hr⟩ := validateSortingLoop_total fm jm.SortConditions
        cases r with
        | none =>
          exfalso
          have hall := (validateSortingLoop_none fm jm.SortConditions).1 hr
          simp only [sortKeyAbsent, List.any_eq_true] at hab
          obtain ⟨x, hx, hxa⟩ := hab
          have := (List.all_eq_true.1 hall) x hx
          simp at this hxa
          rw [this.1] at hxa
          cases hxa
        | some e =>
          obtain ⟨ht, hcode⟩ := validateSortingLoop_some _ _ e hr
          refine ⟨e, ?_, ht,
            Or.inr (Or.inr (Or.inr ⟨by simpa [SORTABLE_ERR_CODE] using hcode, hab⟩))⟩
          simp [Validate, hfm, validateSearchAndProjection, hs, hp, h1, h2, validateConditions,
            h3, validateSorting, hr]

/-- C1: under a registry whose FieldsMap and search, projection, condition and
sorting mappings are non-nil, a request with a key absent from the matching
mapping is rejected by Validate, whatever the order in which its search and
conditions maps are visited: the call returns a TESOQL_VALIDATION_ERROR whose
code (400002, 400003, 400004, 400001) is that of a capability which has an
absent key, and leaves the request as it was. -/
theorem validate_rejects_absent_key (cfg : Config) (fm : FieldsMap) (jm : JsonMap)
    (search : List (String × List Value)) (conditions : List (String × ConditionOperators))
    (hfm : cfg.FieldsMap = some fm)
    (hs : fm.SearchFields.isSome = true) (hp : fm.ProjectionFields.isSome = true)
    (hc : fm.ConditionFields.isSome = true) (_hso : fm.SortingFields.isSome = true)
    (hsearch : search.Perm jm.Search) (hconditions : conditions.Perm jm.Conditions)
    (habs : (searchKeyAbsent fm jm || projectionKeyAbsent fm jm ||
              conditionKeyAbsent fm jm || sortKeyAbsent fm jm) = true) :
    ∃ e, Validate { jm with Search := search, Conditions := conditions } cfg =
        .ok ({ jm with Search := search, Conditions := conditions }, some e) ∧
      e.ErrorType = "TESOQL_VALIDATION_ERROR" ∧
      ((e.ErrorCode = 400002 ∧ searchKeyAbsent fm jm = true) ∨
       (e.ErrorCode = 400003 ∧ projectionKeyAbsent fm jm = true) ∨
       (e.ErrorCode = 400004 ∧ conditionKeyAbsent fm jm = true) ∨
       (e.ErrorCode = 400001 ∧ sortKeyAbsent fm jm = true)) := by
  have e1 : searchKeyAbsent fm { jm with Search := search, Conditions := conditions } =
      searchKeyAbsent fm jm := by
    simp only [searchKeyAbsent]; exact perm_any _ hsearch
  have e2 : conditionKeyAbsent fm { jm with Search := search, Conditions := conditions } =
      conditionKeyAbsent fm jm := by
    simp only [conditionKeyAbsent]; exact perm_any _ hconditions
  have e3 : projectionKeyAbsent fm { jm with Search := search, Conditions := conditions } =
      projectionKeyAbsent fm jm := rfl
  have e4 : sortKeyAbsent fm { jm with Search := search, Conditions := conditions } =
      sortKeyAbsent fm jm := rfl
  have := validate_absent_core cfg fm { jm with Search := search, Conditions := conditions }
    hfm hs hp hc (by rw [e1, e2, e3, e4]; exact habs)
  rw [e1, e2, e3, e4] at this
  exact this

/-- Witness of C1 at a request that sorts by the unregistered field `ghost`, its search map visited in the other order. -/
theorem validate_rejects_absent_key_witness :
    ∃ e, Validate { ghostSortRequest with
            Search := [("city", [Value.str "izmir"]), ("name", [Value.str "ann"])] } userConfig =
        .ok ({ ghostSortRequest with
            Search := [("city", [Value.str "izmir"]), ("name", [Value.str "ann"])] }, some e) ∧
      e.ErrorType = "TESOQL_VALIDATION_ERROR" ∧
      ((e.ErrorCode = 400002 ∧ searchKeyAbsent userFields ghostSortRequest = true) ∨
       (e.ErrorCode = 400003 ∧ projectionKeyAbsent userFields ghostSortRequest = true) ∨
       (e.ErrorCode = 400004 ∧ conditionKeyAbsent userFields ghostSortRequest = true) ∨
       (e.ErrorCode = 400001 ∧ sortKeyAbsent userFields ghostSortRequest = true)) :=
  validate_rejects_absent_key userConfig userFields ghostSortRequest
    [("city", [Value.str "izmir"]), ("name", [Value.str "ann"])] [] rfl rfl rfl rfl rfl
    (List.Perm.swap _ _ _) (List.Perm.refl _) (by decide)

/-! ## Sort directions -/

theorem all_directionOk_iff (l : List SortInput) (p : SortInput → Bool)
    (hp : ∀ s ∈ l, p s = true) :
    l.all (fun s => p s && directionOk s) = true ↔
      ∀ s ∈ l, s.SortCondition = "ASC" ∨ s.SortCondition = "DESC" := by
  simp only [List.all_eq_true, Bool.and_eq_true, directionOk, Bool.or_eq_true, beq_iff_eq]
  constructor
  · intro h s hs; exact (h s hs).2
  · intro h s hs; exact ⟨hp s hs, h s hs⟩

theorem registered_of_not_absent (fm : FieldsMap) (jm : JsonMap)
    (h : sortKeyAbsent fm jm = false) :
    ∀ s ∈ jm.SortConditions, fm.SortingFields.has s.Field = true := by
  intro s hs
  simp only [sortKeyAbsent, List.any_eq_false] at h
  simpa using h s hs

theorem validate_keeps_sort (jm jm' : JsonMap) (cfg : Config) (r : Option ErrorResponseDTO)
    (h : Validate jm cfg = .ok (jm', r)) : jm'.SortConditions = jm.SortConditions := by
  unfold Validate at h
  split at h
  · injection h with h; injection h with h1 h2; subst h1; rfl
  · split at h
    · injection h with h; injection h with h1 h2; subst h1; rfl
    · split at h
      · cases h
      · injection h with h; injection h with h1 h2; subst h1; rfl
      · injection h with h; injection h with h1 h2; subst h1; rfl

/-- C9: when every sort field of the request is a key of SortingFields,
validateSorting returns nil exactly when every direction token is the string
"ASC" or the string "DESC"; a request with any other token gets a
TESOQL_VALIDATION_ERROR with code 400001; and the sort list of the request
is the same after Validate as before, whatever Validate returns. -/
theorem validateSorting_direction (fm : FieldsMap) (jm : JsonMap)
    (hkeys : sortKeyAbsent fm jm = false) :
    (validateSorting jm (some fm) = .ok none ↔
      ∀ s ∈ jm.SortConditions, s.SortCondition = "ASC" ∨ s.SortCondition = "DESC") ∧
    ((∃ s ∈ jm.SortConditions, s.SortCondition ≠ "ASC" ∧ s.SortCondition ≠ "DESC") →
      ∃ e, validateSorting jm (some fm) = .ok (some e) ∧
        e.ErrorType = "TESOQL_VALIDATION_ERROR" ∧ e.ErrorCode = 400001) ∧
    (∀ cfg jm' r, Validate jm cfg = .ok (jm', r) →
      jm'.SortConditions = jm.SortConditions) := by
  have hiff : validateSorting jm (some fm) = .ok none ↔
      ∀ s ∈ jm.SortConditions, s.SortCondition = "ASC" ∨ s.SortCondition = "DESC" := by
    unfold validateSorting
    rw [validateSortingLoop_none]
    exact all_directionOk_iff _ _ (registered_of_not_absent fm jm hkeys)
  refine ⟨hiff, ?_, ?_⟩
  · rintro ⟨s, hs, h1, h2⟩
    obtain ⟨r, hr⟩ := validateSortingLoop_total fm jm.SortConditions
    cases r with
    | none =>
      exfalso
      rcases (hiff.1 hr) s hs with h | h
      · exact h1 h
      · exact h2 h
    | some e =>
      obtain ⟨ht, hc⟩ := validateSortingLoop_some _ _ e hr
      exact ⟨e, hr, ht, by simpa [SORTABLE_ERR_CODE] using hc⟩
  · intro cfg jm' r h
    exact validate_keeps_sort jm jm' cfg r h

/-- Witness of C9 at a request that sorts a registered field in direction `asc`. -/
theorem validateSorting_direction_witness :
    ∃ e, validateSorting lowerCaseSortRequest (some userFields) = .ok (some e) ∧
      e.ErrorType = "TESOQL_VALIDATION_ERROR" ∧ e.ErrorCode = 400001 :=
  (validateSorting_direction userFields lowerCaseSortRequest (by decide)).2.1
    ⟨_, List.mem_singleton.2 rfl, by decide, by decide⟩

/-! ## Requests with registered keys -/

theorem validateConditionsLoop_registered (f : FieldsMap)
    (l : List (String × ConditionOperators))
    (h : l.any (fun kv => !f.ConditionFields.has kv.1) = false) :
    validateConditionsLoop (some f) l = none := by
  induction l with
  | nil => simp [validateConditionsLoop]
  | cons kv rest ih =>
    simp only [List.any_cons, Bool.or_eq_false_iff] at h
    have hk : f.ConditionFields.has kv.1 = true := by simpa using h.1
    simp [validateConditionsLoop, hk, ih h.2]

/-- C10 (counterexample): every key of the request is registered, and
Validate returns the error 400001, because the direction token is `asc`. -/
theorem validate_registered_keys_counterexample :
    allKeysRegistered userConfig lowerCaseSortRequest = true ∧
    Validate lowerCaseSortRequest userConfig =
      .ok (lowerCaseSortRequest, some (newResponse "TESOQL_VALIDATION_ERROR"
        "Sort condition operators cannot be different than 'ASC' or 'DESC' (type : string)!"
        400001)) := by
  constructor
  · decide
  · rfl

/-- C10 (amended): when every key of the request is registered in the matching
mapping and every sort direction is "ASC" or "DESC", Validate returns nil, and
leaves the request with its pagination clamped. -/
theorem validate_registered_keys (cfg : Config) (jm : JsonMap)
    (hkeys : allKeysRegistered cfg jm = true)
    (hdir : ∀ s ∈ jm.SortConditions, s.SortCondition = "ASC" ∨ s.SortCondition = "DESC") :
    Validate jm cfg = .ok (validatePagination jm cfg.Pagination, none) := by
  unfold allKeysRegistered at hkeys
  cases hfm : cfg.FieldsMap with
  | none =>
    rw [hfm] at hkeys
    simp only [Bool.and_eq_true, List.isEmpty_iff] at hkeys
    obtain ⟨⟨⟨_, _⟩, h3⟩, h4⟩ := hkeys
    simp [Validate, hfm, validateConditions, validateSorting, h3, h4, validateConditionsLoop,
      validateSortingLoop]
  | some fm =>
    rw [hfm] at hkeys
    simp only [Bool.and_eq_true, Bool.not_eq_true'] at hkeys
    obtain ⟨⟨⟨h1, h2⟩, h3⟩, h4⟩ := hkeys
    have e1 : validateSearchLoop fm.SearchFields jm.Search = none :=
      (validateSearchLoop_none _ _).2 h1
    have e2 : validateProjectionLoop fm.ProjectionFields jm.ProjectionFields = none :=
      (validateProjectionLoop_none _ _).2 h2
    have e3 : validateConditionsLoop (some fm) jm.Conditions = none :=
      validateConditionsLoop_registered fm _ h3
    have e4 : validateSortingLoop (some fm) jm.SortConditions = .ok none :=
      (validateSortingLoop_none fm _).2
        ((all_directionOk_iff _ _ (registered_of_not_absent fm jm h4)).2 hdir)
    simp [Validate, hfm, validateSearchAndProjection, e1, e2, validateConditions, e3,
      validateSorting, e4]

/-- Witness of C10 as amended, at the request of the `age` example. -/
theorem validate_registered_keys_witness :
    Validate adultsRequest userConfig =
      .ok (validatePagination adultsRequest userConfig.Pagination, none) :=
  validate_registered_keys userConfig adultsRequest (by decide) (by decide)

/-! ## Pagination -/

theorem validatePagination_offset (jm : JsonMap) (pc : Option PaginationConfig) :
    0 ≤ (validatePagination jm pc).Pagination.Offset ∧
      (validatePagination jm pc).Pagination.Offset ≤ 500 := by
  simp only [validatePagination]
  split
  · simp
  · rename_i h
    simp only [Bool.or_eq_true, decide_eq_true_eq, not_or, not_lt] at h
    omega

theorem validatePagination_limit (jm : JsonMap) (pc : Option PaginationConfig)
    (hub : 0 < upperBoundOf pc) :
    0 < (validatePagination jm pc).Pagination.Limit ∧
      (validatePagination jm pc).Pagination.Limit ≤ upperBoundOf pc := by
  simp only [validatePagination]
  split
  · exact ⟨hub, le_refl _⟩
  · rename_i h
    simp only [Bool.or_eq_true, decide_eq_true_eq, not_or, not_le, not_lt] at h
    exact h

theorem validate_ok_pagination (jm jm' : JsonMap) (cfg : Config)
    (h : Validate jm cfg = .ok (jm', none)) : jm' = validatePagination jm cfg.Pagination := by
  unfold Validate at h
  split at h
  · injection h with h; injection h with h1 h2; cases h2
  · split at h
    · injection h with h; injection h with h1 h2; cases h2
    · split at h
      · cases h
      · injection h with h; injection h with h1 h2; cases h2
      · injection h with h; injection h with h1 h2; exact h1.symm

/-- C5 (counterexample): with LimitUpperBound 0 the clamp leaves the limit 0,
which is not positive. -/
theorem pagination_bounds_counterexample :
    (validatePagination { emptyRequest with Pagination := { Limit := 10, Offset := 0 } }
        (some { LimitUpperBound := 0 })).Pagination.Limit = 0 ∧
    ¬ paginationInBounds 0
      (validatePagination { emptyRequest with Pagination := { Limit := 10, Offset := 0 } }
        (some { LimitUpperBound := 0 })).Pagination := by
  constructor
  · decide
  · intro h
    exact absurd h.2.2.1 (by decide)

/-- C5 (amended): for every PaginationConfig whose LimitUpperBound is positive,
and for the nil one (bound 50), and every requested limit and offset,
validatePagination leaves 0 <= offset <= 500 and 0 < limit <= upperBound; the
same holds of the request left by every Validate that returns nil. -/
theorem pagination_bounds (pc : Option PaginationConfig) (jm : JsonMap)
    (hub : 0 < upperBoundOf pc) :
    paginationInBounds (upperBoundOf pc) (validatePagination jm pc).Pagination ∧
    (∀ cfg jm', cfg.Pagination = pc → Validate jm cfg = .ok (jm', none) →
      paginationInBounds (upperBoundOf pc) jm'.Pagination) := by
  have hb : paginationInBounds (upperBoundOf pc) (validatePagination jm pc).Pagination :=
    ⟨(validatePagination_offset jm pc).1, (validatePagination_offset jm pc).2,
      (validatePagination_limit jm pc hub).1, (validatePagination_limit jm pc hub).2⟩
  refine ⟨hb, ?_⟩
  intro cfg jm' hpc h
  rw [validate_ok_pagination jm jm' cfg h, hpc]
  exact hb

/-- Witness of C5 as amended, at the nil configuration with limit 0 and offset -5. -/
theorem pagination_bounds_witness :
    paginationInBounds 50 (validatePagination adultsRequest none).Pagination :=
  (pagination_bounds none adultsRequest (by decide)).1

/-! ## Toggles -/

theorem validateUpperToggles_fst (jm : JsonMap) (t : ToggleConfig) :
    (validateUpperToggles jm t).1 =
      if t.DisableTotalCount then { jm with TotalCount := false } else jm := by
  unfold validateUpperToggles
  simp only
  split_ifs <;> rfl

theorem validateToggles_fst (jm : JsonMap) (t : ToggleConfig) :
    (validateToggles jm (some t)).1 = (validateUpperToggles jm t).1 := by
  unfold validateToggles
  simp only
  split
  · rename_i h; rw [h]
  · rename_i h; rw [h]
    split
    · rfl
    · split <;> rfl

theorem validateToggles_snd (jm : JsonMap) (t : ToggleConfig) :
    (validateToggles jm (some t)).2 =
      match (validateUpperToggles jm t).2 with
      | some e => some e
      | none =>
        match validateConditionTogglesLoop t jm.Conditions with
        | some e => some e
        | none => validateSortingTogglesLoop t jm.SortConditions := by
  have h1 := validateUpperToggles_fst jm t
  have hc : (validateUpperToggles jm t).1.Conditions = jm.Conditions := by
    rw [h1]; split_ifs <;> rfl
  have hs : (validateUpperToggles jm t).1.SortConditions = jm.SortConditions := by
    rw [h1]; split_ifs <;> rfl
  unfold validateToggles
  simp only
  split
  · rename_i h; rw [h]
  · rename_i j h
    rw [h] at hc hs
    simp only at hc hs
    rw [h]
    simp only [validateConditionToggles, validateSortingToggles, hc, hs]
    split
    · rfl
    · split
      · rename_i h3; rw [h3]
      · rename_i h3; rw [h3]

theorem validateUpperToggles_snd_clear (jm : JsonMap) (t : ToggleConfig) :
    (validateUpperToggles { jm with TotalCount := false } t).2 = (validateUpperToggles jm t).2 := by
  unfold validateUpperToggles
  simp only
  split_ifs <;> rfl

theorem conditionToggles_none_of_noFine (t : ToggleConfig) (h : noFineToggle t = true)
    (l : List (String × ConditionOperators)) : validateConditionTogglesLoop t l = none := by
  induction l with
  | nil => rfl
  | cons kv rest ih =>
    simp only [validateConditionTogglesLoop]
    cases hct : t.ConditioningToggles with
    | none => simpa using ih
    | some ct =>
      simp only [noFineToggle, hct, Bool.and_eq_true, Bool.not_eq_true'] at h
      obtain ⟨_, ⟨⟨⟨⟨⟨a1, a2⟩, a3⟩, a4⟩, a5⟩, a6⟩⟩ := h
      simp [conditionToggleCheck, a1, a2, a3, a4, a5, a6, ih]

theorem sortingToggles_none_of_noFine (t : ToggleConfig) (h : noFineToggle t = true)
    (l : List SortInput) : validateSortingTogglesLoop t l = none := by
  have h1 : lowToHighDisabled t = false := by
    unfold lowToHighDisabled
    cases hst : t.SortingToggles with
    | none => rfl
    | some st =>
      simp only [noFineToggle, hst, Bool.and_eq_true, Bool.not_eq_true'] at h
      exact h.1.2
  have h2 : highToLowDisabled t = false := by
    unfold highToLowDisabled
    cases hst : t.SortingToggles with
    | none => rfl
    | some st =>
      simp only [noFineToggle, hst, Bool.and_eq_true, Bool.not_eq_true'] at h
      exact h.1.1
  induction l with
  | nil => rfl
  | cons s rest ih => simp [validateSortingTogglesLoop, h1, h2, ih]

/-- C6: under a policy in which the Disable flag of one capability (search,
projection, sorting, conditioning or pagination) is the only flag set,
validateToggles returns an error exactly when the request uses that capability
(a non-empty search, projection, sort or conditions value; for pagination a
limit or an offset above 0), and the error is a TESOQL_TOGGLE_ERROR with the
code of the capability (400006, 400007, 400005, 400008, 400009). -/
theorem capability_toggle (c : Capability) (t : ToggleConfig) (jm : JsonMap)
    (honly : onlyFlag c t = true) :
    ((validateToggles jm (some t)).2.isSome = usesCapability c jm) ∧
    (∀ e, (validateToggles jm (some t)).2 = some e →
      e.ErrorType = "TESOQL_TOGGLE_ERROR" ∧ e.ErrorCode = c.code) := by
  simp only [onlyFlag, Bool.and_eq_true, Bool.not_eq_true', beq_iff_eq] at honly
  obtain ⟨⟨⟨⟨⟨⟨f1, f2⟩, f3⟩, f4⟩, f5⟩, f6⟩, f7⟩ := honly
  rw [validateToggles_snd, conditionToggles_none_of_noFine t f7,
    sortingToggles_none_of_noFine t f7]
  cases c <;>
    simp [validateUpperToggles, f1, f2, f3, f4, f5, f6, usesCapability, Capability.code,
      List.length_pos, newResponse, TESOQL_TOGGLE_ERROR, SEARCHABLE_TOGGLE_ERR_CODE,
      PROJECTION_TOGGLE_ERR_CODE,
      SORTABLE_TOGGLE_ERR_CODE, PAGINATION_TOGGLE_ERR_CODE, CONDITION_TOGGLE_ERR_CODE] <;>
    split_ifs <;> simp_all

/-- Witness of C6 at the policy that disables search and a request that searches. -/
theorem capability_toggle_witness :
    (validateToggles ghostSortRequest (some searchOff)).2.isSome =
      usesCapability Capability.search ghostSortRequest :=
  (capability_toggle Capability.search searchOff ghostSortRequest (by decide)).1

theorem conditionToggleCheck_none (ct : ConditioningToggles) (ops : ConditionOperators) :
    conditionToggleCheck ct ops = none ↔ disabledSlots ct ops = [] := by
  unfold conditionToggleCheck disabledSlots
  split_ifs <;> simp_all

theorem conditionToggleCheck_some (ct : ConditioningToggles) (ops : ConditionOperators)
    (e : ErrorResponseDTO) (h : conditionToggleCheck ct ops = some e) :
    e.ErrorType = "TESOQL_TOGGLE_ERROR" ∧ e.ErrorCode ∈ disabledSlots ct ops := by
  unfold conditionToggleCheck at h
  unfold disabledSlots
  split_ifs at h <;>
    (injection h with h; subst h
     simp_all [newResponse, TESOQL_TOGGLE_ERROR, GREATERTHAN_CONDITION_TOGGLE_ERR_CODE,
       GREATEROREQUAL_CONDITION_TOGGLE_ERR_CODE, LOWERTHAN_CONDITION_TOGGLE_ERR_CODE,
       LOWEROREQUAL_CONDITION_TOGGLE_ERR_CODE, VALUESTOEXCLUDE_CONDITION_TOGGLE_ERR_CODE,
       VALUESTOEXACTMATCH_CONDITION_TOGGLE_ERR_CODE])

theorem conditionTogglesLoop_none (t : ToggleConfig) (ct : ConditioningToggles)
    (hct : t.ConditioningToggles = some ct) (l : List (String × ConditionOperators)) :
    validateConditionTogglesLoop t l = none ↔ ∀ kv ∈ l, disabledSlots ct kv.2 = [] := by
  induction l with
  | nil => simp [validateConditionTogglesLoop]
  | cons kv rest ih =>
    simp only [validateConditionTogglesLoop, hct, List.mem_cons, forall_eq_or_imp]
    cases hk : conditionToggleCheck ct kv.2 with
    | none =>
      simp only [ih]
      have := (conditionToggleCheck_none ct kv.2).1 hk
      simp [this]
    | some e =>
      have : disabledSlots ct kv.2 ≠ [] := fun h0 => by
        have := (conditionToggleCheck_none ct kv.2).2 h0
        rw [hk] at this; cases this
      simp [this]

theorem conditionTogglesLoop_some (t : ToggleConfig) (ct : ConditioningToggles)
    (hct : t.ConditioningToggles = some ct) (l : List (String × ConditionOperators))
    (e : ErrorResponseDTO) (h : validateConditionTogglesLoop t l = some e) :
    e.ErrorType = "TESOQL_TOGGLE_ERROR" ∧ ∃ kv ∈ l, e.ErrorCode ∈ disabledSlots ct kv.2 := by
  induction l with
  | nil => simp [validateConditionTogglesLoop] at h
  | cons kv rest ih =>
    simp only [validateConditionTogglesLoop, hct] at h
    cases hk : conditionToggleCheck ct kv.2 with
    | none =>
      rw [hk] at h
      obtain ⟨h1, kv', hm, hc⟩ := ih h
      exact ⟨h1, kv', List.mem_cons_of_mem _ hm, hc⟩
    | some e' =>
      rw [hk] at h
      injection h with h
      subst h
      obtain ⟨h1, h2⟩ := conditionToggleCheck_some ct kv.2 _ hk
      exact ⟨h1, kv, List.mem_cons_self _ _, h2⟩

theorem sortingTogglesLoop_some (t : ToggleConfig) (l : List SortInput)
    (e : ErrorResponseDTO) (h : validateSortingTogglesLoop t l = some e) :
    e.ErrorCode = 400016 ∨ e.ErrorCode = 400017 := by
  induction l with
  | nil => simp [validateSortingTogglesLoop] at h
  | cons s rest ih =>
    simp only [validateSortingTogglesLoop] at h
    split_ifs at h
    · injection h with h; subst h; left; rfl
    · injection h with h; subst h; right; rfl
    · exact ih h

/-- C7: for a request that triggers no capability-level toggle and a policy
with a non-nil ConditioningToggles: if some condition field has a present
(non-nil) operator slot whose flag is set, validateToggles returns a
TESOQL_TOGGLE_ERROR whose code is the operator code (400010 to 400015) of such
a slot of the request; if no present slot has its flag set, validateToggles
returns what the direction check returns, which is nil or a direction error
(400016, 400017), so no operator error.  The request with conditions
age: greaterOrEqual: 21 fails with code 400011 under the policy whose only set
flag is DisableGreaterOrEqual. -/
theorem operator_toggle (jm : JsonMap) (t : ToggleConfig) (ct : ConditioningToggles)
    (hupper : (validateUpperToggles jm t).2 = none)
    (hct : t.ConditioningToggles = some ct) :
    ((∃ kv ∈ jm.Conditions, disabledSlots ct kv.2 ≠ []) →
      ∃ e, (validateToggles jm (some t)).2 = some e ∧ e.ErrorType = "TESOQL_TOGGLE_ERROR" ∧
        ∃ kv ∈ jm.Conditions, e.ErrorCode ∈ disabledSlots ct kv.2) ∧
    ((∀ kv ∈ jm.Conditions, disabledSlots ct kv.2 = []) →
      (validateToggles jm (some t)).2 = validateSortingToggles jm t ∧
      ∀ e, (validateToggles jm (some t)).2 = some e →
        e.ErrorCode = 400016 ∨ e.ErrorCode = 400017) ∧
    (validateToggles adultsRequest (some greaterOrEqualOff)).2 =
      some (newResponse "TESOQL_TOGGLE_ERROR" "DisableGreaterOrEqual toggle is open." 400011) := by
  refine ⟨?_, ?_, rfl⟩
  · rintro ⟨kv, hkv, hne⟩
    cases hl : validateConditionTogglesLoop t jm.Conditions with
    | none =>
      exact absurd ((conditionTogglesLoop_none t ct hct _).1 hl kv hkv) hne
    | some e =>
      obtain ⟨h1, h2⟩ := conditionTogglesLoop_some t ct hct _ e hl
      refine ⟨e, ?_, h1, h2⟩
      rw [validateToggles_snd, hupper, hl]
  · intro hall
    have hl := (conditionTogglesLoop_none t ct hct _).2 hall
    have heq : (validateToggles jm (some t)).2 = validateSortingToggles jm t := by
      rw [validateToggles_snd, hupper, hl]; rfl
    refine ⟨heq, ?_⟩
    intro e he
    rw [heq] at he
    exact sortingTogglesLoop_some t _ e he

/-- Witness of C7 at the request of the `age` example under DisableGreaterOrEqual. -/
theorem operator_toggle_witness :
    ∃ e, (validateToggles adultsRequest (some greaterOrEqualOff)).2 = some e ∧
      e.ErrorType = "TESOQL_TOGGLE_ERROR" ∧
      ∃ kv ∈ adultsRequest.Conditions, e.ErrorCode ∈ disabledSlots
        { DisableGreaterThan := false, DisableGreaterOrEqual := true,
          DisableValuesToExactMatch := false, DisableLowerThan := false,
          DisableLowerOrEqual := false, DisableValuesToExclude := false } kv.2 :=
  (operator_toggle adultsRequest greaterOrEqualOff _ rfl rfl).1
    ⟨_, List.mem_singleton.2 rfl, by decide⟩

/-- C8: validateToggles under a non-nil policy leaves the request with
TotalCount cleared when DisableTotalCount is set and as requested otherwise,
every other field being unchanged in both cases; with DisableTotalCount set the
error it returns (or nil) is the one it returns on the same request with
totalCount false, so that totalCount never causes a failure; and under a nil
policy the request is unchanged and the result is nil. -/
theorem total_count_toggle (jm : JsonMap) (t : ToggleConfig) :
    (validateToggles jm (some t)).1 =
      (if t.DisableTotalCount then { jm with TotalCount := false } else jm) ∧
    (validateToggles jm (some t)).2 =
      (validateToggles { jm with TotalCount := false } (some t)).2 ∧
    validateToggles jm none = (jm, none) := by
  refine ⟨?_, ?_, rfl⟩
  · rw [validateToggles_fst, validateUpperToggles_fst]
  · rw [validateToggles_snd, validateToggles_snd, validateUpperToggles_snd_clear]

/-! ## The where clause and its arguments -/

theorem addSqlSearchTerms_eq (f : FieldsMap) (key : String) (vs : List Value)
    (orc : List String) (args : List Value) :
    addSqlSearchTerms (some f) key vs orc args =
      .ok (orc ++ vs.map (fun _ => f.SearchFields.index key ++ " LIKE ?"),
           args ++ vs.map likeArg) := by
  induction vs generalizing orc args with
  | nil => simp [addSqlSearchTerms]
  | cons v rest ih => simp [addSqlSearchTerms, ih, likeArg]

theorem addSqlSearchLoop_eq (f : FieldsMap) (l : List (String × List Value))
    (conds : List String) (args : List Value) :
    addSqlSearchLoop (some f) l conds args =
      .ok (conds ++ (searchClauses f l).map (fun c => c.1),
           args ++ clausesArgs (searchClauses f l)) := by
  induction l generalizing conds args with
  | nil => simp [addSqlSearchLoop, searchClauses, clausesArgs]
  | cons kv rest ih =>
    simp only [addSqlSearchLoop, addSqlSearchTerms_eq, List.nil_append]
    cases hv : kv.2 with
    | nil =>
      simp [ih, searchClauses, hv, clausesArgs]
    | cons v vs =>
      simp [ih, searchClauses, hv, clausesArgs, searchGroup, List.replicate_succ]

theorem sqlListSlot_eq (f : FieldsMap) (key op : String) (slot : Option (List Value))
    (st : List String × List Value) :
    sqlListSlot (some f) key op slot st =
      .ok (st.1 ++ (listClause (f.ConditionFields.index key) op slot).map (fun c => c.1),
           st.2 ++ clausesArgs (listClause (f.ConditionFields.index key) op slot)) := by
  unfold sqlListSlot listClause clausesArgs
  split <;> simp [placeholders]

theorem sqlScalarSlot_eq (f : FieldsMap) (key op : String) (slot : Value)
    (st : List String × List Value) :
    sqlScalarSlot (some f) key op slot st =
      .ok (st.1 ++ (scalarClause (f.ConditionFields.index key) op slot).map (fun c => c.1),
           st.2 ++ clausesArgs (scalarClause (f.ConditionFields.index key) op slot)) := by
  unfold sqlScalarSlot scalarClause clausesArgs
  by_cases h : slot = Value.nil <;> simp [h]

theorem clausesArgs_append (a b : List (String × List Value)) :
    clausesArgs (a ++ b) = clausesArgs a ++ clausesArgs b := by
  simp [clausesArgs]

theorem addSqlConditionStep_eq (f : FieldsMap) (key : String) (c : ConditionOperators)
    (st : List String × List Value) :
    addSqlConditionStep (some f) key c st =
      .ok (st.1 ++ (fieldClauses (f.ConditionFields.index key) c).map (fun c => c.1),
           st.2 ++ clausesArgs (fieldClauses (f.ConditionFields.index key) c)) := by
  simp only [addSqlConditionStep, sqlListSlot_eq, sqlScalarSlot_eq, bind, Except.bind,
    fieldClauses, clausesArgs_append, List.map_append, List.append_assoc]

theorem addSqlConditionLoop_eq (f : FieldsMap) (l : List (String × ConditionOperators))
    (st : List String × List Value) :
    addSqlConditionLoop (some f) l st =
      .ok (st.1 ++ (l.flatMap
              (fun kv => fieldClauses (f.ConditionFields.index kv.1) kv.2)).map (fun c => c.1),
           st.2 ++ clausesArgs (l.flatMap
              (fun kv => fieldClauses (f.ConditionFields.index kv.1) kv.2))) := by
  induction l generalizing st with
  | nil => simp [addSqlConditionLoop, clausesArgs]
  | cons kv rest ih =>
    simp [addSqlConditionLoop, addSqlConditionStep_eq, ih, clausesArgs_append]

theorem getSqlFilter_eq (f : FieldsMap) (jm : JsonMap) :
    getSqlFilter (some f) jm =
      .ok (clausesText (sqlClauses f jm), clausesArgs (sqlClauses f jm)) := by
  simp [getSqlFilter, addSqlSearchFilter, addSqlSearchLoop_eq, addSqlConditionFilters,
    addSqlConditionLoop_eq, clausesText, sqlClauses, clausesArgs_append]

theorem countQ_append (a b : String) : countQ (a ++ b) = countQ a + countQ b := by
  simp [countQ, String.toList, List.count_append]

theorem countQ_join (sep : String) (hsep : countQ sep = 0) (l : List String) :
    countQ (stringsJoin l sep) = (l.map countQ).sum := by
  induction l with
  | nil => simp [stringsJoin]; rfl
  | cons a rest ih =>
    cases rest with
    | nil => simp [stringsJoin]
    | cons b rest2 =>
      simp only [stringsJoin, countQ_append, hsep, ih]
      simp

theorem sum_map_const_one {α : Type} (l : List α) (f : α → Nat) (h : ∀ a ∈ l, f a = 1) :
    (l.map f).sum = l.length := by
  induction l with
  | nil => rfl
  | cons a rest ih =>
    simp only [List.map_cons, List.sum_cons, List.length_cons]
    rw [h a (List.mem_cons_self _ _), ih (fun b hb => h b (List.mem_cons_of_mem _ hb))]
    omega

theorem countQ_index (m : StrMap) (k : String)
    (h : m.values.all (fun v => countQ v == 0) = true) : countQ (m.index k) = 0 := by
  cases m with
  | none => rfl
  | some kvs =>
    simp only [StrMap.values, List.all_eq_true, List.mem_map, beq_iff_eq] at h
    simp only [StrMap.index, StrMap.get?]
    induction kvs with
    | nil => rfl
    | cons kv rest ih =>
      obtain ⟨k', v⟩ := kv
      simp only [List.lookup]
      split
      · exact h v ⟨(k', v), List.mem_cons_self _ _, rfl⟩
      · exact ih (fun x ⟨y, hy, hxy⟩ => h x ⟨y, List.mem_cons_of_mem _ hy, hxy⟩)

theorem searchGroup_aligned (id : String) (hid : countQ id = 0) (values : List Value) :
    countQ (searchGroup id values).1 = (searchGroup id values).2.length := by
  have h1 : countQ "(" = 0 := by decide
  have h2 : countQ ")" = 0 := by decide
  have h3 : countQ " OR " = 0 := by decide
  have h4 : countQ " LIKE ?" = 1 := by decide
  simp only [searchGroup, countQ_append, countQ_join _ h3, h1, h2, List.map_map,
    List.length_map]
  rw [sum_map_const_one]
  · simp
  · intro a _
    simp [countQ_append, hid, h4]

theorem listClause_aligned (id op : String) (hid : countQ id = 0) (hop : countQ op = 0)
    (slot : Option (List Value)) :
    ∀ c ∈ listClause id op slot, countQ c.1 = c.2.length := by
  have h1 : countQ " " = 0 := by decide
  have h2 : countQ " (" = 0 := by decide
  have h3 : countQ ")" = 0 := by decide
  have h4 : countQ ", " = 0 := by decide
  have h5 : countQ "?" = 1 := by decide
  intro c hc
  unfold listClause at hc
  split at hc
  · rename_i v vs
    rw [List.mem_singleton] at hc
    subst hc
    simp only [countQ_append, countQ_join _ h4, hid, hop, h1, h2, h3, List.map_map]
    rw [sum_map_const_one]
    · simp
    · intro a _
      exact h5
  · cases hc

theorem scalarClause_aligned (id op : String) (hid : countQ id = 0) (hop : countQ op = 0)
    (slot : Value) :
    ∀ c ∈ scalarClause id op slot, countQ c.1 = c.2.length := by
  have h1 : countQ " " = 0 := by decide
  have h2 : countQ " ?" = 1 := by decide
  intro c hc
  unfold scalarClause at hc
  split at hc
  · cases hc
  · rw [List.mem_singleton] at hc
    subst hc
    simp [countQ_append, hid, hop, h1, h2]

theorem fieldClauses_aligned (id : String) (hid : countQ id = 0) (c : ConditionOperators) :
    ∀ x ∈ fieldClauses id c, countQ x.1 = x.2.length := by
  intro x hx
  simp only [fieldClauses, List.mem_append] at hx
  rcases hx with ((((hx | hx) | hx) | hx) | hx) | hx
  · exact listClause_aligned id "IN" hid (by decide) _ x hx
  · exact scalarClause_aligned id ">=" hid (by decide) _ x hx
  · exact scalarClause_aligned id ">" hid (by decide) _ x hx
  · exact scalarClause_aligned id "<=" hid (by decide) _ x hx
  · exact scalarClause_aligned id "<" hid (by decide) _ x hx
  · exact listClause_aligned id "NOT IN" hid (by decide) _ x hx

theorem sqlClauses_aligned (fm : FieldsMap) (jm : JsonMap) (hclean : identifiersClean fm = true) :
    ∀ c ∈ sqlClauses fm jm, countQ c.1 = c.2.length := by
  simp only [identifiersClean, Bool.and_eq_true] at hclean
  intro c hc
  simp only [sqlClauses, List.mem_append, searchClauses, List.mem_map, List.mem_flatMap] at hc
  rcases hc with ⟨kv, _, rfl⟩ | ⟨kv, _, hc⟩
  · exact searchGroup_aligned _ (countQ_index _ _ hclean.1) _
  · exact fieldClauses_aligned _ (countQ_index _ _ hclean.2) _ c hc

theorem clauses_count (cl : List (String × List Value))
    (h : ∀ c ∈ cl, countQ c.1 = c.2.length) :
    countQ (clausesText cl) = (clausesArgs cl).length := by
  have hand : countQ " AND " = 0 := by decide
  simp only [clausesText, clausesArgs, countQ_join _ hand, List.length_flatten, List.map_map]
  congr 1
  apply List.map_congr_left
  intro c hc
  exact h c hc

theorem getSqlProjectionLoop_total (f : FieldsMap) (l acc : List String) :
    ∃ r, getSqlProjectionLoop (some f) l acc = .ok r := by
  induction l generalizing acc with
  | nil => exact ⟨acc, rfl⟩
  | cons a rest ih =>
    simp only [getSqlProjectionLoop]
    split
    · exact ih _
    · exact ih _

theorem getSqlSortConditionLoop_total (f : FieldsMap) (l : List SortInput) (acc : List String) :
    ∃ r, getSqlSortConditionLoop (some f) l acc = .ok r := by
  induction l generalizing acc with
  | nil => exact ⟨acc, rfl⟩
  | cons a rest ih =>
    simp only [getSqlSortConditionLoop]
    exact ih _

theorem NewSqlQuery_filter (f : FieldsMap) (jm : JsonMap) :
    ∃ q, NewSqlQuery jm (some f) = .ok q ∧ q.Where = clausesText (sqlClauses f jm) ∧
      q.Args = clausesArgs (sqlClauses f jm) := by
  have hp : ∃ s, getSqlProjection (some f) jm = .ok s := by
    unfold getSqlProjection
    split
    · obtain ⟨r, hr⟩ := getSqlProjectionLoop_total f jm.ProjectionFields []
      rw [hr]; exact ⟨_, rfl⟩
    · exact ⟨_, rfl⟩
  have hs : ∃ s, getSqlSortCondition (some f) jm = .ok s := by
    unfold getSqlSortCondition
    obtain ⟨r, hr⟩ := getSqlSortConditionLoop_total f jm.SortConditions []
    rw [hr]
    simp only
    split <;> exact ⟨_, rfl⟩
  obtain ⟨s1, h1⟩ := hp
  obtain ⟨s2, h2⟩ := hs
  refine ⟨{ Select := s1, Where := clausesText (sqlClauses f jm),
            Args := clausesArgs (sqlClauses f jm), OrderBy := s2,
            Limit := "LIMIT " ++ toString jm.Pagination.Limit,
            Offset := "OFFSET " ++ toString jm.Pagination.Offset }, ?_, rfl, rfl⟩
  simp only [NewSqlQuery, h1, h2, getSqlFilter_eq, bind, Except.bind, pure, Except.pure]

/-- C3: for every registry whose trusted identifiers contain no `?` and every
request, whatever its search fields, search values and condition operators and
whatever the order in which its maps are visited, getSqlFilter returns a where
text and an argument list such that the number of `?` in the text is the
length of the list; NewSqlQuery returns a query with that Where and Args. -/
theorem placeholders_match_args (fm : FieldsMap) (jm : JsonMap)
    (hclean : identifiersClean fm = true) :
    ∃ w args, getSqlFilter (some fm) jm = .ok (w, args) ∧ countQ w = args.length ∧
      ∃ q, NewSqlQuery jm (some fm) = .ok q ∧ q.Where = w ∧ q.Args = args := by
  refine ⟨_, _, getSqlFilter_eq fm jm, ?_, NewSqlQuery_filter fm jm⟩
  exact clauses_count _ (sqlClauses_aligned fm jm hclean)

/-- Witness of C3 at a request with a search and three conditions. -/
theorem placeholders_match_args_witness :
    ∃ w args, getSqlFilter (some userFields) mixedRequest = .ok (w, args) ∧
      countQ w = args.length ∧
      ∃ q, NewSqlQuery mixedRequest (some userFields) = .ok q ∧ q.Where = w ∧ q.Args = args :=
  placeholders_match_args userFields mixedRequest (by decide)

/-- C4 (counterexample): with the search identifier `is_it?` the where text has
two `?` and one argument, so its first `?` is not the placeholder of the
first argument. -/
theorem where_args_order_counterexample :
    getSqlFilter (some questionFields) questionRequest =
      .ok ("(is_it? LIKE ?)", [Value.str "%x%"]) ∧
    countQ "(is_it? LIKE ?)" = 2 ∧
    ([Value.str "%x%"] : List Value).length = 1 := by
  refine ⟨rfl, by decide, rfl⟩

/-- C4 (amended): for every registry and request, the where text returned by
getSqlFilter is the " AND "-join of a list of clauses and Args is the
concatenation, in the same order, of the values of each clause (the values
printed between two `%` for a LIKE group, the list elements for IN and NOT IN,
the single operand for the four comparisons); and when no trusted identifier
contains `?`, each clause has as many `?` as it has values, so that for every
n the `?` of the first n clauses are the placeholders of the arguments of
those clauses: the k-th `?` stands for Args[k]. -/
theorem where_args_order (fm : FieldsMap) (jm : JsonMap) :
    getSqlFilter (some fm) jm =
      .ok (clausesText (sqlClauses fm jm), clausesArgs (sqlClauses fm jm)) ∧
    (identifiersClean fm = true →
      (∀ c ∈ sqlClauses fm jm, countQ c.1 = c.2.length) ∧
      ∀ n, countQ (clausesText ((sqlClauses fm jm).take n)) =
        (clausesArgs ((sqlClauses fm jm).take n)).length) := by
  refine ⟨getSqlFilter_eq fm jm, fun hclean => ⟨sqlClauses_aligned fm jm hclean, ?_⟩⟩
  intro n
  apply clauses_count
  intro c hc
  exact sqlClauses_aligned fm jm hclean c (List.mem_of_mem_take hc)

/-- Witness of C4 as amended, at the first two clauses of a request with a search and three conditions. -/
theorem where_args_order_witness :
    countQ (clausesText ((sqlClauses userFields mixedRequest).take 2)) =
      (clausesArgs ((sqlClauses userFields mixedRequest).take 2)).length :=
  ((where_args_order userFields mixedRequest).2 (by decide)).2 2

/-! ## The service -/

/-- C2 (counterexample): a request whose sort key `ghost` is absent from
SortingFields is handed by Get to the repository, and compiles to an ORDER BY
with the empty identifier. -/
theorem get_validates_fields_counterexample :
    sortKeyAbsent userFields ghostSortRequest = true ∧
    Service.Get { repo := idleRepository, toggles := some noToggles } ghostSortRequest =
      ({ response := [], totalCount := 0, size := 0, err := none }, [ghostSortRequest]) ∧
    getSqlSortCondition (some userFields) ghostSortRequest = .ok " ORDER BY  ASC" := by
  refine ⟨by decide, rfl, rfl⟩

/-- C2 (amended): for a request that references a key absent from the matching
mapping, Validate (under a registry whose FieldsMap and search, projection and
condition mappings are non-nil) returns a validation error and leaves the
request as it was; Get itself runs the toggle checks only: when validateToggles
returns an error, Get returns that error with no rows and hands nothing to the
repository, and when validateToggles returns nil, Get hands the request to the
repository although a key of it is unresolved. -/
theorem get_checks_toggles_only (s : Service) (cfg : Config) (fm : FieldsMap) (jm : JsonMap)
    (hfm : cfg.FieldsMap = some fm)
    (hs : fm.SearchFields.isSome = true) (hp : fm.ProjectionFields.isSome = true)
    (hc : fm.ConditionFields.isSome = true)
    (habs : (searchKeyAbsent fm jm || projectionKeyAbsent fm jm ||
              conditionKeyAbsent fm jm || sortKeyAbsent fm jm) = true) :
    (∃ e, Validate jm cfg = .ok (jm, some e) ∧ e.ErrorType = "TESOQL_VALIDATION_ERROR") ∧
    (∀ e, (validateToggles jm s.toggles).2 = some e →
      s.Get jm = ({ response := [], totalCount := 0, size := 0, err := some e }, [])) ∧
    ((validateToggles jm s.toggles).2 = none →
      (s.Get jm).2 = [(validateToggles jm s.toggles).1]) := by
  refine ⟨?_, ?_, ?_⟩
  · obtain ⟨e, h1, h2, _⟩ := validate_absent_core cfg fm jm hfm hs hp hc habs
    exact ⟨e, h1, h2⟩
  · intro e he
    unfold Service.Get
    split
    · rename_i h; rw [h] at he; injection he with he; subst he; rfl
    · rename_i h; rw [h] at he; cases he
  · intro hn
    unfold Service.Get
    split
    · rename_i h; rw [h] at hn; cases hn
    · rename_i h; rw [h]
      simp only
      split <;> rfl

/-- Witness of C2 as amended, at a request that sorts by the unregistered field `ghost`. -/
theorem get_checks_toggles_only_witness :
    (Service.Get { repo := idleRepository, toggles := some noToggles } ghostSortRequest).2 =
      [(validateToggles ghostSortRequest (some noToggles)).1] :=
  (get_checks_toggles_only { repo := idleRepository, toggles := some noToggles } userConfig
    userFields ghostSortRequest rfl rfl rfl rfl (by decide)).2.2 rfl

/-! ## Unpopulated registries -/

theorem validateConditionsLoop_nil_registry (l : List (String × ConditionOperators)) :
    validateConditionsLoop none l = none := by
  induction l with
  | nil => rfl
  | cons kv rest ih => simpa [validateConditionsLoop] using ih

theorem validateConditionsLoop_nil_mapping (f : FieldsMap) (h : f.ConditionFields = none)
    (l : List (String × ConditionOperators)) :
    validateConditionsLoop (some f) l = none := by
  induction l with
  | nil => rfl
  | cons kv rest ih => simp [validateConditionsLoop, h, ih]

/-- C11 (counterexample): a request that searches the field `name` passes
Validate under the nil registry of DefaultConfig, and under a registry whose
mappings are all nil. -/
theorem unpopulated_registry_counterexample :
    referencesKey nameSearchRequest = true ∧
    Validate nameSearchRequest DefaultConfig =
      .ok (validatePagination nameSearchRequest DefaultConfig.Pagination, none) ∧
    Validate nameSearchRequest { DefaultConfig with FieldsMap := some nilMappings } =
      .ok (validatePagination nameSearchRequest DefaultConfig.Pagination, none) := by
  refine ⟨by decide, rfl, rfl⟩

/-- C11 (amended): under a non-nil registry whose search, projection and
condition mappings are non-nil and empty and whose sorting mapping is nil or
empty, every request that references a client key gets a validation error from
Validate and is left as it was.  A nil registry, and a nil search, projection
or condition mapping, switch the check off instead: a request without sort
entries passes Validate under a nil registry, and under a registry whose
search, projection and condition mappings are nil. -/
theorem unpopulated_registry (cfg : Config) (jm : JsonMap) :
    (∀ fm, cfg.FieldsMap = some fm → fm.SearchFields = some [] →
      fm.ProjectionFields = some [] → fm.ConditionFields = some [] →
      (fm.SortingFields = some [] ∨ fm.SortingFields = none) → referencesKey jm = true →
      ∃ e, Validate jm cfg = .ok (jm, some e) ∧ e.ErrorType = "TESOQL_VALIDATION_ERROR") ∧
    (cfg.FieldsMap = none → jm.SortConditions = [] →
      Validate jm cfg = .ok (validatePagination jm cfg.Pagination, none)) ∧
    (∀ fm, cfg.FieldsMap = some fm → fm.SearchFields = none → fm.ProjectionFields = none →
      fm.ConditionFields = none → jm.SortConditions = [] →
      Validate jm cfg = .ok (validatePagination jm cfg.Pagination, none)) := by
  refine ⟨?_, ?_, ?_⟩
  · intro fm hfm hs hp hc hso hkey
    have habs : (searchKeyAbsent fm jm || projectionKeyAbsent fm jm ||
        conditionKeyAbsent fm jm || sortKeyAbsent fm jm) = true := by
      have hhas : ∀ (m : StrMap) (k : String), (m = some [] ∨ m = none) → m.has k = false := by
        intro m k hm
        rcases hm with hm | hm <;> subst hm <;> rfl
      simp only [referencesKey, Bool.or_eq_true, Bool.not_eq_true', List.isEmpty_eq_false] at hkey
      simp only [searchKeyAbsent, projectionKeyAbsent, conditionKeyAbsent, sortKeyAbsent,
        hhas _ _ (Or.inl hs), hhas _ _ (Or.inl hp), hhas _ _ (Or.inl hc), hhas _ _ hso,
        Bool.not_false, Bool.or_eq_true, List.any_eq_true]
      rcases hkey with ((h | h) | h) | h
      · obtain ⟨x, hx⟩ := List.exists_mem_of_ne_nil _ h
        exact Or.inl (Or.inl (Or.inl ⟨x, hx, trivial⟩))
      · obtain ⟨x, hx⟩ := List.exists_mem_of_ne_nil _ h
        exact Or.inl (Or.inl (Or.inr ⟨x, hx, trivial⟩))
      · obtain ⟨x, hx⟩ := List.exists_mem_of_ne_nil _ h
        exact Or.inl (Or.inr ⟨x, hx, trivial⟩)
      · obtain ⟨x, hx⟩ := List.exists_mem_of_ne_nil _ h
        exact Or.inr ⟨x, hx, trivial⟩
    obtain ⟨e, h1, h2, _⟩ := validate_absent_core cfg fm jm hfm (by rw [hs]; rfl)
      (by rw [hp]; rfl) (by rw [hc]; rfl) habs
    exact ⟨e, h1, h2⟩
  · intro hfm hsort
    simp [Validate, hfm, validateConditions, validateConditionsLoop_nil_registry,
      validateSorting, hsort, validateSortingLoop]
  · intro fm hfm hs hp hc hsort
    simp [Validate, hfm, validateSearchAndProjection, hs, hp, validateConditions,
      validateConditionsLoop_nil_mapping fm hc, validateSorting, hsort, validateSortingLoop]

/-- Witness of C11 as amended, at the registry with empty mappings and a
request that searches the field `name`. -/
theorem unpopulated_registry_witness :
    ∃ e, Validate nameSearchRequest { DefaultConfig with FieldsMap := some emptyMappings } =
        .ok (nameSearchRequest, some e) ∧ e.ErrorType = "TESOQL_VALIDATION_ERROR" :=
  (unpopulated_registry { DefaultConfig with FieldsMap := some emptyMappings }
    nameSearchRequest).1 emptyMappings rfl rfl rfl rfl (Or.inl rfl) (by decide)

/-! ## The query text -/

theorem NewSqlQuery_ok (jm : JsonMap) (fm : Option FieldsMap) (q : SqlQuery)
    (h : NewSqlQuery jm fm = .ok q) :
    q.Limit = "LIMIT " ++ toString jm.Pagination.Limit ∧
    q.Offset = "OFFSET " ++ toString jm.Pagination.Offset := by
  unfold NewSqlQuery at h
  cases h1 : getSqlProjection fm jm with
  | error p => simp [h1, bind, Except.bind] at h
  | ok s =>
    cases h2 : getSqlFilter fm jm with
    | error p => simp [h1, h2, bind, Except.bind] at h
    | ok wa =>
      cases h3 : getSqlSortCondition fm jm with
      | error p => simp [h1, h2, h3, bind, Except.bind] at h
      | ok o =>
        simp only [h1, h2, h3, bind, Except.bind, pure, Except.pure] at h
        injection h with h
        subst h
        exact ⟨rfl, rfl⟩

/-- C14: whenever NewSqlQuery returns a query, GetSqlQuery returns the text
`SELECT <Select> FROM <table> WHERE 1=1`, then ` AND <Where>` exactly when
Where is not empty, then `<OrderBy> <Limit> <Offset>`; its second result is
the part of the text after `WHERE 1=1`; its third result is Args; Limit and
Offset read `LIMIT n` and `OFFSET m`, so that with an empty Where the text is
`SELECT <Select> FROM <table> WHERE 1=1<OrderBy> LIMIT n OFFSET m`. -/
theorem getSqlQuery_text (jm : JsonMap) (fm : Option FieldsMap) (tableName : String)
    (q : SqlQuery) (h : NewSqlQuery jm fm = .ok q) :
    GetSqlQuery jm fm tableName =
      .ok ("SELECT " ++ q.Select ++ " FROM " ++ tableName ++ " WHERE 1=1" ++
            ((if q.Where = "" then "" else " AND " ++ q.Where) ++
              q.OrderBy ++ " " ++ q.Limit ++ " " ++ q.Offset),
           (if q.Where = "" then "" else " AND " ++ q.Where) ++
              q.OrderBy ++ " " ++ q.Limit ++ " " ++ q.Offset,
           q.Args) ∧
    q.Limit = "LIMIT " ++ toString jm.Pagination.Limit ∧
    q.Offset = "OFFSET " ++ toString jm.Pagination.Offset ∧
    (q.Where = "" →
      GetSqlQuery jm fm tableName =
        .ok ("SELECT " ++ q.Select ++ " FROM " ++ tableName ++ " WHERE 1=1" ++ q.OrderBy ++
              " LIMIT " ++ toString jm.Pagination.Limit ++
              " OFFSET " ++ toString jm.Pagination.Offset,
             q.OrderBy ++ " LIMIT " ++ toString jm.Pagination.Limit ++
              " OFFSET " ++ toString jm.Pagination.Offset,
             q.Args)) := by
  obtain ⟨hl, ho⟩ := NewSqlQuery_ok jm fm q h
  have hmain : GetSqlQuery jm fm tableName =
      .ok ("SELECT " ++ q.Select ++ " FROM " ++ tableName ++ " WHERE 1=1" ++
            ((if q.Where = "" then "" else " AND " ++ q.Where) ++
              q.OrderBy ++ " " ++ q.Limit ++ " " ++ q.Offset),
           (if q.Where = "" then "" else " AND " ++ q.Where) ++
              q.OrderBy ++ " " ++ q.Limit ++ " " ++ q.Offset,
           q.Args) := by
    simp only [GetSqlQuery, h, bind, Except.bind, pure, Except.pure]
    by_cases hw : q.Where = "" <;> simp [hw, String.append_assoc]
  refine ⟨hmain, hl, ho, ?_⟩
  intro hw
  have e1 : ∀ x : String, " " ++ ("LIMIT " ++ x) = " LIMIT " ++ x := fun x => by
    rw [← String.append_assoc]; rfl
  have e2 : ∀ x : String, " " ++ ("OFFSET " ++ x) = " OFFSET " ++ x := fun x => by
    rw [← String.append_assoc]; rfl
  rw [hmain, hl, ho]
  simp [hw, String.append_assoc, e1, e2]

/-- Witness of C14 at the request of the `age` example. -/
theorem getSqlQuery_text_witness :
    GetSqlQuery adultsRequest (some ageNameFields) "users" =
      .ok ("SELECT * FROM users WHERE 1=1 AND u.age >= ? ORDER BY u.full_name ASC LIMIT 0 OFFSET -5",
           " AND u.age >= ? ORDER BY u.full_name ASC LIMIT 0 OFFSET -5",
           [Value.int 21]) :=
  (getSqlQuery_text adultsRequest (some ageNameFields) "users"
    { Select := "*", Where := "u.age >= ?", OrderBy := " ORDER BY u.full_name ASC",
      Limit := "LIMIT 0", Offset := "OFFSET -5", Args := [Value.int 21] } rfl).1

/-- C13 (the code at the failing input): two requests that differ only in
their offset get different second results from GetSqlQuery, and the count
query built from the second result carries ORDER BY, LIMIT and OFFSET. -/
theorem count_query_pagination :
    { adultsPage 0 with Pagination := (adultsPage 20).Pagination } = adultsPage 20 ∧
    GetSqlQuery (adultsPage 0) (some ageNameFields) "users" =
      .ok ("SELECT * FROM users WHERE 1=1 AND u.age >= ? ORDER BY u.full_name ASC LIMIT 10 OFFSET 0",
           " AND u.age >= ? ORDER BY u.full_name ASC LIMIT 10 OFFSET 0", [Value.int 21]) ∧
    GetSqlQuery (adultsPage 20) (some ageNameFields) "users" =
      .ok ("SELECT * FROM users WHERE 1=1 AND u.age >= ? ORDER BY u.full_name ASC LIMIT 10 OFFSET 20",
           " AND u.age >= ? ORDER BY u.full_name ASC LIMIT 10 OFFSET 20", [Value.int 21]) ∧
    repositoryCountQuery (some ageNameFields) "users" (adultsPage 0) =
      .ok "SELECT COUNT(*) FROM users WHERE 1=1 AND u.age >= ? ORDER BY u.full_name ASC LIMIT 10 OFFSET 0" ∧
    repositoryCountQuery (some ageNameFields) "users" (adultsPage 20) =
      .ok "SELECT COUNT(*) FROM users WHERE 1=1 AND u.age >= ? ORDER BY u.full_name ASC LIMIT 10 OFFSET 20" := by
  refine ⟨rfl, rfl, rfl, rfl, rfl⟩

/-- C15: for the request with conditions age: greaterOrEqual: 21, sorted by
name ASC, with limit 0 and offset -5, under the registry age -> u.age,
name -> u.full_name, bound 50 and no flag set: Validate returns nil and leaves
the pagination at limit 50 and offset 0; validateToggles returns nil, before
and after Validate; and NewSqlQuery on the validated request yields the Where
`u.age >= ?`, the Args [21], the OrderBy ` ORDER BY u.full_name ASC`, the
Limit `LIMIT 50` and the Offset `OFFSET 0`. -/
theorem age_example :
    Validate adultsRequest ageNameConfig =
      .ok ({ adultsRequest with Pagination := { Limit := 50, Offset := 0 } }, none) ∧
    validateToggles adultsRequest ageNameConfig.Toggles = (adultsRequest, none) ∧
    validateToggles { adultsRequest with Pagination := { Limit := 50, Offset := 0 } }
        ageNameConfig.Toggles =
      ({ adultsRequest with Pagination := { Limit := 50, Offset := 0 } }, none) ∧
    NewSqlQuery { adultsRequest with Pagination := { Limit := 50, Offset := 0 } }
        ageNameConfig.FieldsMap =
      .ok { Select := "*", Where := "u.age >= ?", OrderBy := " ORDER BY u.full_name ASC",
            Limit := "LIMIT 50", Offset := "OFFSET 0", Args := [Value.int 21] } := by
  refine ⟨rfl, rfl, rfl, rfl⟩

/-! ## The document-store compiler -/

theorem parseIntoLoopVariable_eq (parse : TimeParser) (values : List Value) :
    parseIntoLoopVariable parse values = values := by
  unfold parseIntoLoopVariable
  generalize hs : values = slice
  conv => lhs; arg 3; rw [← hs]
  clear hs
  induction values generalizing slice with
  | nil => rfl
  | cons v rest ih => simp

theorem mongoListSlot_eq (parse : TimeParser) (f : FieldsMap) (k op : String)
    (slot : Option (List Value)) (condArr : List Bson) :
    mongoListSlot parse (some f) k op slot condArr =
      .ok (condArr ++ mongoListClause f k op slot) := by
  unfold mongoListSlot mongoListClause
  cases slot with
  | none => simp
  | some values =>
    simp only [parseIntoLoopVariable_eq]
    split <;> rfl

theorem mongoScalarSlot_eq (parse : TimeParser) (f : FieldsMap) (k op : String)
    (slot : Value) (condArr : List Bson) :
    mongoScalarSlot parse (some f) k op slot condArr =
      .ok (condArr ++ mongoScalarClause parse f k op slot) := by
  unfold mongoScalarSlot mongoScalarClause
  by_cases h : slot = Value.nil <;> simp [h]

theorem addMongoConditionStep_eq (parse : TimeParser) (f : FieldsMap) (k : String)
    (c : ConditionOperators) (condArr : List Bson) :
    addMongoConditionStep parse (some f) k c condArr =
      .ok (condArr ++ mongoFieldClauses parse f k c) := by
  simp only [addMongoConditionStep, mongoListSlot_eq, mongoScalarSlot_eq, bind, Except.bind,
    mongoFieldClauses, List.append_assoc]

theorem addMongoConditionLoop_eq (parse : TimeParser) (f : FieldsMap)
    (l : List (String × ConditionOperators)) (condArr : List Bson) :
    addMongoConditionLoop parse (some f) l condArr =
      .ok (condArr ++ l.flatMap (fun kv => mongoFieldClauses parse f kv.1 kv.2)) := by
  induction l generalizing condArr with
  | nil => simp [addMongoConditionLoop]
  | cons kv rest ih => simp [addMongoConditionLoop, addMongoConditionStep_eq, ih]

theorem addMongoSearchTerms_eq (f : FieldsMap) (key : String) (vs : List Value)
    (orFilters : List Bson) :
    addMongoSearchTerms (some f) key vs orFilters =
      .ok (orFilters ++ vs.map (fun v =>
        Bson.doc [(f.SearchFields.index key, Bson.regex (sprintV v) "i")])) := by
  induction vs generalizing orFilters with
  | nil => simp [addMongoSearchTerms]
  | cons v rest ih => simp [addMongoSearchTerms, ih]

theorem addMongoSearchLoop_eq (f : FieldsMap) (l : List (String × List Value))
    (filterArr : List Bson) :
    addMongoSearchLoop (some f) l filterArr = .ok (filterArr ++ mongoSearchGroups f l) := by
  induction l generalizing filterArr with
  | nil => simp [addMongoSearchLoop, mongoSearchGroups]
  | cons kv rest ih =>
    simp only [addMongoSearchLoop, addMongoSearchTerms_eq, List.nil_append]
    cases hv : kv.2 with
    | nil => simp [ih, mongoSearchGroups, hv]
    | cons v vs => simp [ih, mongoSearchGroups, hv]

theorem getMongoFilter_eq (parse : TimeParser) (f : FieldsMap) (jm : JsonMap) :
    getMongoFilter parse (some f) jm =
      .ok (if (mongoSearchGroups f jm.Search ++
              (if (jm.Conditions.flatMap
                    (fun kv => mongoFieldClauses parse f kv.1 kv.2)).length > 0 then
                [Bson.doc [("$and", Bson.arr (jm.Conditions.flatMap
                    (fun kv => mongoFieldClauses parse f kv.1 kv.2)))]]
               else [])).isEmpty then none
           else some [("$and", Bson.arr (mongoSearchGroups f jm.Search ++
              (if (jm.Conditions.flatMap
                    (fun kv => mongoFieldClauses parse f kv.1 kv.2)).length > 0 then
                [Bson.doc [("$and", Bson.arr (jm.Conditions.flatMap
                    (fun kv => mongoFieldClauses parse f kv.1 kv.2)))]]
               else [])))]) := by
  simp only [getMongoFilter, addMongoSearchFilter, addMongoSearchLoop_eq,
    addMongoConditionFilter, addMongoConditionLoop_eq, List.nil_append]
  split_ifs <;> simp_all

theorem getMongoProjectionLoop_total (f : FieldsMap) (l : List String)
    (acc : List (String × Bson)) : ∃ r, getMongoProjectionLoop (some f) l acc = .ok r := by
  induction l generalizing acc with
  | nil => exact ⟨acc, rfl⟩
  | cons a rest ih => simp only [getMongoProjectionLoop]; exact ih _

theorem getMongoSortConditionLoop_total (f : FieldsMap) (l : List SortInput)
    (acc : List (String × Bson)) : ∃ r, getMongoSortConditionLoop (some f) l acc = .ok r := by
  induction l generalizing acc with
  | nil => exact ⟨acc, rfl⟩
  | cons a rest ih => simp only [getMongoSortConditionLoop]; exact ih _

theorem NewMongoQuery_total (parse : TimeParser) (f : FieldsMap) (jm : JsonMap) :
    ∃ m, NewMongoQuery parse jm (some f) = .ok m := by
  have hp : ∃ s, getMongoProjection (some f) jm = .ok s := by
    unfold getMongoProjection
    obtain ⟨r, hr⟩ := getMongoProjectionLoop_total f jm.ProjectionFields []
    rw [hr]
    simp only
    split <;> exact ⟨_, rfl⟩
  have hs : ∃ s, getMongoSortCondition (some f) jm = .ok s := by
    unfold getMongoSortCondition
    obtain ⟨r, hr⟩ := getMongoSortConditionLoop_total f jm.SortConditions []
    rw [hr]
    simp only
    split <;> exact ⟨_, rfl⟩
  obtain ⟨s1, h1⟩ := hp
  obtain ⟨s2, h2⟩ := hs
  simp only [NewMongoQuery, h1, h2, getMongoFilter_eq, bind, Except.bind, pure, Except.pure]
  exact ⟨_, rfl⟩

/-- C12 (the code at the failing input): under DefaultConfig, whose registry
is nil, a request that searches the field `name` passes Validate, and both
compilers then panic on the nil registry; under a non-nil registry both
compilers return a query for every request. -/
theorem compile_after_validate :
    Validate nameSearchRequest DefaultConfig =
      .ok (validatePagination nameSearchRequest DefaultConfig.Pagination, none) ∧
    NewSqlQuery (validatePagination nameSearchRequest DefaultConfig.Pagination)
      DefaultConfig.FieldsMap = .error Panic.nilDereference ∧
    NewMongoQuery sampleParser (validatePagination nameSearchRequest DefaultConfig.Pagination)
      DefaultConfig.FieldsMap = .error Panic.nilDereference ∧
    (∀ (parse : TimeParser) (fm : FieldsMap) (jm : JsonMap),
      (∃ q, NewSqlQuery jm (some fm) = .ok q) ∧
      (∃ m, NewMongoQuery parse jm (some fm) = .ok m)) := by
  refine ⟨rfl, rfl, rfl, ?_⟩
  intro parse fm jm
  obtain ⟨q, hq, _⟩ := NewSqlQuery_filter fm jm
  exact ⟨⟨q, hq⟩, NewMongoQuery_total parse fm jm⟩

/-- C16 (counterexample): for an exact-match list on `city` and a lower bound
on `age`, the top-level `$and` array of the filter has one element, a document
with the key `$and` whose array holds the two clauses; neither clause is an
element of the top-level array. -/
theorem mongo_filter_two_fields_counterexample :
    getMongoFilter sampleParser (some dateFields) cityAgeRequest =
      .ok (some [("$and", Bson.arr [Bson.doc [("$and", Bson.arr
        [inClause dateFields "city" [Value.str "izmir"],
         gteClause dateFields "age" (Value.int 21)])]])]) ∧
    inClause dateFields "city" [Value.str "izmir"] ∉
      [Bson.doc [("$and", Bson.arr
        [inClause dateFields "city" [Value.str "izmir"],
         gteClause dateFields "age" (Value.int 21)])]] ∧
    gteClause dateFields "age" (Value.int 21) ∉
      [Bson.doc [("$and", Bson.arr
        [inClause dateFields "city" [Value.str "izmir"],
         gteClause dateFields "age" (Value.int 21)])]] := by
  refine ⟨rfl, ?_, ?_⟩
  · simp [inClause, dateFields, StrMap.index, StrMap.get?, List.lookup]
  · simp [gteClause, dateFields, StrMap.index, StrMap.get?, List.lookup]

/-- C16 (amended): for a request with no search and exactly two condition
fields, `a` with only the exact-match list `l` and `b` with only the
greater-or-equal operand `v`, `b` not a date field, getMongoFilter returns the
document `$and: [ $and: C ]`: its top-level array has one element, the document
with the key `$and`, and the array C of that document consists of the clause
`ConditionFields[a]: $in: l` and the clause `ConditionFields[b]: $gte: v`, in
the order in which the two fields are visited. -/
theorem mongo_filter_two_fields (parse : TimeParser) (fm : FieldsMap) (jm : JsonMap)
    (a b : String) (l : List Value) (v : Value)
    (hsearch : jm.Search = []) (hv : v ≠ Value.nil)
    (hb : isDateTimeFieldKey b fm.DateTimeFieldKeys = false) :
    (jm.Conditions = [(a, onlyExactMatch l), (b, onlyGreaterOrEqual v)] →
      getMongoFilter parse (some fm) jm =
        .ok (some [("$and", Bson.arr [Bson.doc [("$and", Bson.arr
          [inClause fm a l, gteClause fm b v])]])])) ∧
    (jm.Conditions = [(b, onlyGreaterOrEqual v), (a, onlyExactMatch l)] →
      getMongoFilter parse (some fm) jm =
        .ok (some [("$and", Bson.arr [Bson.doc [("$and", Bson.arr
          [gteClause fm b v, inClause fm a l])]])])) := by
  have ha : mongoFieldClauses parse fm a (onlyExactMatch l) = [inClause fm a l] := by
    simp [mongoFieldClauses, onlyExactMatch, noOperators, mongoListClause, mongoScalarClause,
      inClause]
  have hb2 : mongoFieldClauses parse fm b (onlyGreaterOrEqual v) = [gteClause fm b v] := by
    simp [mongoFieldClauses, onlyGreaterOrEqual, noOperators, mongoListClause,
      mongoScalarClause, hv, treatDateTime, hb, gteClause]
  constructor
  · intro hc
    rw [getMongoFilter_eq]
    simp [hsearch, hc, mongoSearchGroups, ha, hb2]
  · intro hc
    rw [getMongoFilter_eq]
    simp [hsearch, hc, mongoSearchGroups, ha, hb2]

/-- Witness of C16 as amended, at an exact-match list on `city` and a lower
bound on `age`. -/
theorem mongo_filter_two_fields_witness :
    getMongoFilter sampleParser (some dateFields) cityAgeRequest =
      .ok (some [("$and", Bson.arr [Bson.doc [("$and", Bson.arr
        [inClause dateFields "city" [Value.str "izmir"],
         gteClause dateFields "age" (Value.int 21)])]])]) :=
  (mongo_filter_two_fields sampleParser dateFields cityAgeRequest "city" "age"
    [Value.str "izmir"] (Value.int 21) rfl (by decide) (by decide)).1 rfl

/-- C17 (the code at the failing input): on the date field `created`, the
timestamp text in the exact-match list and in the exclusion list reaches the
`$in` and `$nin` arrays as the text it was, while the same text as the
greater-or-equal operand is replaced by the parsed time; and for every
registry, field, parser and list, the list slot appends the list as the
request gives it. -/
theorem mongo_list_dates :
    addMongoConditionFilter sampleParser [] datedRequest (some dateFields) =
      .ok [Bson.doc [("created_at",
              Bson.doc [("$in", Bson.arr [Bson.value (Value.str "2024-01-02T03:04:05Z")])])],
           Bson.doc [("created_at", Bson.doc [("$gte", Bson.timePtr 1704164645)])],
           Bson.doc [("created_at",
              Bson.doc [("$nin", Bson.arr [Bson.value (Value.str "2024-01-02T03:04:05Z")])])]] ∧
    (∀ (parse : TimeParser) (fm : FieldsMap) (k op : String) (values : List Value)
        (condArr : List Bson),
      mongoListSlot parse (some fm) k op (some values) condArr =
        .ok (condArr ++ [Bson.doc [(fm.ConditionFields.index k,
              Bson.doc [(op, Bson.arr (values.map Bson.value))])]])) := by
  refine ⟨rfl, ?_⟩
  intro parse fm k op values condArr
  rw [mongoListSlot_eq]
  rfl

/-! ## Operands of the SQL compiler -/

theorem getSqlProjectionLoop_dates (f : FieldsMap) (d : StrMap) (l acc : List String) :
    getSqlProjectionLoop (some { f with DateTimeFieldKeys := d }) l acc =
      getSqlProjectionLoop (some f) l acc := by
  induction l generalizing acc with
  | nil => rfl
  | cons a rest ih =>
    simp only [getSqlProjectionLoop]
    split <;> exact ih _

theorem getSqlSortConditionLoop_dates (f : FieldsMap) (d : StrMap) (l : List SortInput)
    (acc : List String) :
    getSqlSortConditionLoop (some { f with DateTimeFieldKeys := d }) l acc =
      getSqlSortConditionLoop (some f) l acc := by
  induction l generalizing acc with
  | nil => rfl
  | cons a rest ih =>
    simp only [getSqlSortConditionLoop]
    exact ih _

theorem NewSqlQuery_dates (f : FieldsMap) (d : StrMap) (jm : JsonMap) :
    NewSqlQuery jm (some { f with DateTimeFieldKeys := d }) = NewSqlQuery jm (some f) := by
  have h1 : getSqlFilter (some { f with DateTimeFieldKeys := d }) jm = getSqlFilter (some f) jm := by
    rw [getSqlFilter_eq, getSqlFilter_eq]
    rfl
  simp only [NewSqlQuery, getSqlProjection, getSqlSortCondition, getSqlProjectionLoop_dates,
    getSqlSortConditionLoop_dates, h1]

theorem mem_clausesArgs (cl : List (String × List Value)) (c : String × List Value)
    (x : Value) (hc : c ∈ cl) (hx : x ∈ c.2) : x ∈ clausesArgs cl := by
  simp only [clausesArgs, List.mem_flatten, List.mem_map]
  exact ⟨c.2, ⟨c, hc, rfl⟩, hx⟩

theorem mem_args_of_field (fm : FieldsMap) (jm : JsonMap) (kv : String × ConditionOperators)
    (hkv : kv ∈ jm.Conditions) (c : String × List Value)
    (hc : c ∈ fieldClauses (fm.ConditionFields.index kv.1) kv.2) (x : Value) (hx : x ∈ c.2) :
    x ∈ clausesArgs (sqlClauses fm jm) := by
  apply mem_clausesArgs _ c x _ hx
  simp only [sqlClauses, List.mem_append, List.mem_flatMap]
  exact Or.inr ⟨kv, hkv, hc⟩

/-- C18 (counterexample): on the date field `created` the SQL compiler returns
the timestamp text of the greater-or-equal operand as its argument, while
treatDateTime, which the document-store compiler applies, turns the same
operand into the parsed time. -/
theorem sql_date_operand_counterexample :
    NewSqlQuery sinceRequest (some dateFields) =
      .ok { Select := "*", Where := "created_at >= ?", OrderBy := "", Limit := "LIMIT 0",
            Offset := "OFFSET 0", Args := [Value.str "2024-01-02T03:04:05Z"] } ∧
    treatDateTime sampleParser "created" dateFields.DateTimeFieldKeys
        (Value.str "2024-01-02T03:04:05Z") = Bson.timePtr 1704164645 ∧
    Bson.value (Value.str "2024-01-02T03:04:05Z") ≠ Bson.timePtr 1704164645 := by
  refine ⟨rfl, rfl, ?_⟩
  intro h
  cases h

/-- C18 (amended): the SQL compiler does not consult DateTimeFieldKeys and
coerces no operand: for every registry and request, NewSqlQuery returns a
query, the same query whatever the date mapping is, and every non-nil scalar
operand and every element of a non-empty list of every condition field is an
element of Args as the request gives it, whether it parses as a timestamp or
not. -/
theorem sql_operands_unchanged (fm : FieldsMap) (jm : JsonMap) :
    (∀ d : StrMap, NewSqlQuery jm (some { fm with DateTimeFieldKeys := d }) =
      NewSqlQuery jm (some fm)) ∧
    ∃ q, NewSqlQuery jm (some fm) = .ok q ∧
      ∀ kv ∈ jm.Conditions,
        (kv.2.GreaterOrEqual ≠ Value.nil → kv.2.GreaterOrEqual ∈ q.Args) ∧
        (kv.2.GreaterThan ≠ Value.nil → kv.2.GreaterThan ∈ q.Args) ∧
        (kv.2.LowerOrEqual ≠ Value.nil → kv.2.LowerOrEqual ∈ q.Args) ∧
        (kv.2.LowerThan ≠ Value.nil → kv.2.LowerThan ∈ q.Args) ∧
        (∀ l, kv.2.ValuesToExactMatch = some l → ∀ x ∈ l, x ∈ q.Args) ∧
        (∀ l, kv.2.ValuesToExclude = some l → ∀ x ∈ l, x ∈ q.Args) := by
  refine ⟨fun d => NewSqlQuery_dates fm d jm, ?_⟩
  obtain ⟨q, hq, _, hargs⟩ := NewSqlQuery_filter fm jm
  refine ⟨q, hq, ?_⟩
  intro kv hkv
  rw [hargs]
  have scalar : ∀ (op : String) (v : Value), v ≠ Value.nil →
      (fm.ConditionFields.index kv.1 ++ " " ++ op ++ " ?", [v]) ∈
        scalarClause (fm.ConditionFields.index kv.1) op v := by
    intro op v hv
    simp [scalarClause, hv]
  have list : ∀ (op : String) (l : List Value) (x : Value), x ∈ l →
      ∃ c ∈ listClause (fm.ConditionFields.index kv.1) op (some l), x ∈ c.2 := by
    intro op l x hx
    cases l with
    | nil => cases hx
    | cons v vs => exact ⟨_, List.mem_singleton.2 rfl, hx⟩
  refine ⟨?_, ?_, ?_, ?_, ?_, ?_⟩
  · intro hv
    exact mem_args_of_field fm jm kv hkv _
      (by simp only [fieldClauses, List.mem_append]; have := scalar ">=" _ hv; tauto)
      _ (List.mem_singleton.2 rfl)
  · intro hv
    exact mem_args_of_field fm jm kv hkv _
      (by simp only [fieldClauses, List.mem_append]; have := scalar ">" _ hv; tauto)
      _ (List.mem_singleton.2 rfl)
  · intro hv
    exact mem_args_of_field fm jm kv hkv _
      (by simp only [fieldClauses, List.mem_append]; have := scalar "<=" _ hv; tauto)
      _ (List.mem_singleton.2 rfl)
  · intro hv
    exact mem_args_of_field fm jm kv hkv _
      (by simp only [fieldClauses, List.mem_append]; have := scalar "<" _ hv; tauto)
      _ (List.mem_singleton.2 rfl)
  · intro l hl x hx
    obtain ⟨c, hc, hxc⟩ := list "IN" l x hx
    rw [← hl] at hc
    exact mem_args_of_field fm jm kv hkv c
      (by simp only [fieldClauses, List.mem_append]; tauto) x hxc
  · intro l hl x hx
    obtain ⟨c, hc, hxc⟩ := list "NOT IN" l x hx
    rw [← hl] at hc
    exact mem_args_of_field fm jm kv hkv c
      (by simp only [fieldClauses, List.mem_append]; tauto) x hxc

/-- Witness of C18 as amended: the timestamp text of `created` is an argument
of the compiled query. -/
theorem sql_operands_unchanged_witness :
    ∃ q, NewSqlQuery sinceRequest (some dateFields) = .ok q ∧
      Value.str "2024-01-02T03:04:05Z" ∈ q.Args :=
  match (sql_operands_unchanged dateFields sinceRequest).2 with
  | ⟨q, hq, h⟩ => ⟨q, hq, (h _ (List.mem_singleton.2 rfl)).1 (by decide)⟩

/-! ## Condition clauses and search groups -/

theorem fieldClauses_texts (id : String) (c : ConditionOperators) :
    (fieldClauses id c).map (fun x => x.1) = conditionTexts id c := by
  have hlist : ∀ (op : String) (slot : Option (List Value)),
      (listClause id op slot).map (fun x => x.1) =
        (match slot with
         | some (v :: vs) => [listComparison id op (v :: vs).length]
         | _ => []) := by
    intro op slot
    unfold listClause listComparison
    split <;> simp [List.replicate_succ]
  have hscalar : ∀ (op : String) (v : Value),
      (scalarClause id op v).map (fun x => x.1) =
        (if v = Value.nil then [] else [id ++ (" " ++ op ++ " ?")]) := by
    intro op v
    unfold scalarClause
    split
    · rfl
    · simp [String.append_assoc]
  have e1 : (" " ++ ">=" ++ " ?" : String) = " >= ?" := by decide
  have e2 : (" " ++ ">" ++ " ?" : String) = " > ?" := by decide
  have e3 : (" " ++ "<=" ++ " ?" : String) = " <= ?" := by decide
  have e4 : (" " ++ "<" ++ " ?" : String) = " < ?" := by decide
  simp only [fieldClauses, conditionTexts, List.map_append, hlist, hscalar, e1, e2, e3, e4]

theorem conditionTexts_length (id : String) (c : ConditionOperators) :
    (conditionTexts id c).length = emittedSlots c := by
  unfold conditionTexts emittedSlots
  simp only [List.length_append]
  congr 1
  · congr 1
    · congr 1
      · congr 1
        · congr 1
          · split <;> rfl
          · split <;> rfl
        · split <;> rfl
      · split <;> rfl
    · split <;> rfl
  · split <;> rfl

/-- C19 (counterexample): an exact-match list that is non-nil and empty is a
present slot for the toggle check, which rejects it with code 400015 when
exact match is disabled, yet addSqlConditionFilters emits no clause for it. -/
theorem condition_clauses_counterexample :
    (emptyListRequest.Conditions.map (fun kv => kv.2.ValuesToExactMatch.isSome)) = [true] ∧
    (validateToggles emptyListRequest (some exactMatchOff)).2 =
      some (newResponse "TESOQL_TOGGLE_ERROR" "DisableValuesToExactMatch toggle is open."
        400015) ∧
    addSqlConditionFilters (some userFields) emptyListRequest [] [] = .ok ([], []) ∧
    getSqlFilter (some userFields) emptyListRequest = .ok ("", []) := by
  refine ⟨rfl, rfl, rfl, rfl⟩

/-- C19 (amended): for every registry and request, addSqlConditionFilters
emits, for each condition field in visiting order, one comparison for each
non-nil scalar operand and one for each list that is non-nil and non-empty,
`id IN (?, ...)`, `id >= ?`, `id > ?`, `id <= ?`, `id < ?`, `id NOT IN (?, ...)`
with id = ConditionFields[key], in that order; a field contributes as many
clauses as it has such slots; and the where text is the " AND "-join of the
search groups followed by these clauses. -/
theorem condition_clauses (fm : FieldsMap) (jm : JsonMap) :
    ∃ texts args, addSqlConditionFilters (some fm) jm [] [] = .ok (texts, args) ∧
      texts = jm.Conditions.flatMap
        (fun kv => conditionTexts (fm.ConditionFields.index kv.1) kv.2) ∧
      texts.length = (jm.Conditions.map (fun kv => emittedSlots kv.2)).sum ∧
      (∀ kv ∈ jm.Conditions,
        (conditionTexts (fm.ConditionFields.index kv.1) kv.2).length = emittedSlots kv.2) ∧
      ∃ args2, getSqlFilter (some fm) jm =
        .ok (stringsJoin ((searchClauses fm jm.Search).map (fun c => c.1) ++ texts) " AND ",
             args2) := by
  have htexts : (jm.Conditions.flatMap
        (fun kv => fieldClauses (fm.ConditionFields.index kv.1) kv.2)).map (fun c => c.1) =
      jm.Conditions.flatMap
        (fun kv => conditionTexts (fm.ConditionFields.index kv.1) kv.2) := by
    induction jm.Conditions with
    | nil => rfl
    | cons kv rest ih =>
      simp only [List.flatMap_cons, List.map_append, ih, fieldClauses_texts]
  refine ⟨jm.Conditions.flatMap
      (fun kv => conditionTexts (fm.ConditionFields.index kv.1) kv.2),
    clausesArgs (jm.Conditions.flatMap
      (fun kv => fieldClauses (fm.ConditionFields.index kv.1) kv.2)), ?_, rfl, ?_, ?_, ?_⟩
  · simp only [addSqlConditionFilters, addSqlConditionLoop_eq, List.nil_append, htexts]
  · induction jm.Conditions with
    | nil => rfl
    | cons kv rest ih =>
      simp only [List.flatMap_cons, List.length_append, List.map_cons, List.sum_cons, ih,
        conditionTexts_length]
  · intro kv _
    exact conditionTexts_length _ _
  · refine ⟨clausesArgs (sqlClauses fm jm), ?_⟩
    rw [getSqlFilter_eq]
    simp only [clausesText, sqlClauses, List.map_append, htexts]

/-- C20: for every registry and every request without conditions, the where
text is the " AND "-join of one group per search field that has at least one
value, in visiting order, the group of a field with n values being
`(id LIKE ? OR ... OR id LIKE ?)` with n terms and id = SearchFields[key]; the
arguments are the values of all fields, each printed between two `%`, in the
order of the fields and of their value lists; a field with an empty value
list contributes no group and no argument; and an empty search map gives the
empty text and no argument. -/
theorem search_groups (fm : FieldsMap) (jm : JsonMap) (hcond : jm.Conditions = []) :
    getSqlFilter (some fm) jm =
      .ok (stringsJoin
            ((jm.Search.filter (fun kv => decide (kv.2 ≠ []))).map
              (fun kv => likeGroup (fm.SearchFields.index kv.1) kv.2.length)) " AND ",
           jm.Search.flatMap
              (fun kv => kv.2.map (fun v => Value.str ("%" ++ sprintV v ++ "%")))) ∧
    (jm.Search = [] → getSqlFilter (some fm) jm = .ok ("", [])) := by
  have hpred : (fun kv : String × List Value => !kv.2.isEmpty) =
      (fun kv => decide (kv.2 ≠ [])) := by
    funext kv
    cases kv.2 <;> rfl
  have htext : ∀ l : List (String × List Value),
      (searchClauses fm l).map (fun c => c.1) =
        (l.filter (fun kv => decide (kv.2 ≠ []))).map
          (fun kv => likeGroup (fm.SearchFields.index kv.1) kv.2.length) := by
    intro l
    simp only [searchClauses, hpred, List.map_map]
    apply List.map_congr_left
    intro kv _
    simp [searchGroup, likeGroup]
  have hflat : ∀ l : List (String × List Value),
      ((l.filter (fun kv => decide (kv.2 ≠ []))).map (fun kv => kv.2.map likeArg)).flatten =
        l.flatMap (fun kv => kv.2.map likeArg) := by
    intro l
    induction l with
    | nil => rfl
    | cons kv rest ih =>
      cases hv : kv.2 with
      | nil => simpa [List.filter_cons, hv] using ih
      | cons v vs => simpa [List.filter_cons, hv] using ih
  have hargs : ∀ l : List (String × List Value),
      clausesArgs (searchClauses fm l) =
        l.flatMap (fun kv => kv.2.map (fun v => Value.str ("%" ++ sprintV v ++ "%"))) := by
    intro l
    simp only [searchClauses, clausesArgs, hpred, List.map_map]
    exact hflat l
  have hmain : getSqlFilter (some fm) jm =
      .ok (stringsJoin
            ((jm.Search.filter (fun kv => decide (kv.2 ≠ []))).map
              (fun kv => likeGroup (fm.SearchFields.index kv.1) kv.2.length)) " AND ",
           jm.Search.flatMap
              (fun kv => kv.2.map (fun v => Value.str ("%" ++ sprintV v ++ "%")))) := by
    rw [getSqlFilter_eq]
    simp only [clausesText, sqlClauses, hcond, List.flatMap_nil, List.append_nil, htext, hargs]
  refine ⟨hmain, ?_⟩
  intro hs
  rw [hmain, hs]
  rfl

/-- Witness of C20 at a request that searches `name` for two values and
`city` for none. -/
theorem search_groups_witness :
    getSqlFilter (some userFields) twoFieldSearch =
      .ok ("(u.full_name LIKE ? OR u.full_name LIKE ?)", [Value.str "%ann%", Value.str "%7%"]) :=
  (search_groups userFields twoFieldSearch rfl).1

/-! ## Projection and sort order -/

theorem getSqlProjectionLoop_eq (f : FieldsMap) (l acc : List String) :
    getSqlProjectionLoop (some f) l acc =
      .ok (acc ++ l.filterMap (fun field => f.ProjectionFields.get? field)) := by
  induction l generalizing acc with
  | nil => simp [getSqlProjectionLoop]
  | cons a rest ih =>
    simp only [getSqlProjectionLoop]
    cases h : f.ProjectionFields.get? a with
    | none => simp [ih, List.filterMap_cons, h]
    | some v => simp [ih, List.filterMap_cons, h]

theorem filterMap_registered (m : StrMap) (l : List String)
    (h : l.any (fun field => !m.has field) = false) :
    l.filterMap (fun field => m.get? field) = l.map (fun field => m.index field) := by
  induction l with
  | nil => rfl
  | cons a rest ih =>
    simp only [List.any_cons, Bool.or_eq_false_iff] at h
    have ha : (m.get? a).isSome = true := by simpa [StrMap.has] using h.1
    obtain ⟨v, hv⟩ := Option.isSome_iff_exists.1 ha
    simp [List.filterMap_cons, hv, StrMap.index, ih h.2]

/-- C21: when every projection key of the request is a key of
ProjectionFields, getSqlProjection returns `*` for an empty projection list
and otherwise the ", "-join of the identifiers ProjectionFields[f] of the
requested fields f, one per requested field, in request order. -/
theorem sql_projection (fm : FieldsMap) (jm : JsonMap)
    (hreg : projectionKeyAbsent fm jm = false) :
    getSqlProjection (some fm) jm =
      .ok (if jm.ProjectionFields = [] then "*"
           else stringsJoin
             (jm.ProjectionFields.map (fun field => fm.ProjectionFields.index field)) ", ") ∧
    (jm.ProjectionFields.map (fun field => fm.ProjectionFields.index field)).length =
      jm.ProjectionFields.length := by
  refine ⟨?_, List.length_map _ _⟩
  unfold getSqlProjection
  by_cases h : jm.ProjectionFields = []
  · simp [h]
  · have hpos : jm.ProjectionFields.length > 0 := List.length_pos.2 h
    simp only [hpos, if_true, getSqlProjectionLoop_eq, List.nil_append, h, if_false]
    rw [filterMap_registered _ _ hreg]

/-- Witness of C21 at a request that projects `name` and `age`. -/
theorem sql_projection_witness :
    getSqlProjection (some userFields) projectedRequest = .ok "u.full_name, u.age" :=
  (sql_projection userFields projectedRequest (by decide)).1

theorem getSqlSortConditionLoop_eq (f : FieldsMap) (l : List SortInput) (acc : List String) :
    getSqlSortConditionLoop (some f) l acc =
      .ok (acc ++ l.map (fun s => f.SortingFields.index s.Field ++ " " ++ s.SortCondition)) := by
  induction l generalizing acc with
  | nil => simp [getSqlSortConditionLoop]
  | cons a rest ih => simp [getSqlSortConditionLoop, ih]

/-- C22: for every registry and request, getSqlSortCondition returns the empty
text when the sort list is empty and otherwise ` ORDER BY ` followed by the
", "-join of `SortingFields[field] direction`, one pair per sort entry, in the
order of the sort list, the direction token as the request gives it. -/
theorem sql_sort_order (fm : FieldsMap) (jm : JsonMap) :
    getSqlSortCondition (some fm) jm =
      .ok (if jm.SortConditions = [] then ""
           else " ORDER BY " ++ stringsJoin
             (jm.SortConditions.map
               (fun s => fm.SortingFields.index s.Field ++ " " ++ s.SortCondition)) ", ") ∧
    (jm.SortConditions.map
      (fun s => fm.SortingFields.index s.Field ++ " " ++ s.SortCondition)).length =
      jm.SortConditions.length := by
  refine ⟨?_, List.length_map _ _⟩
  unfold getSqlSortCondition
  simp only [getSqlSortConditionLoop_eq, List.nil_append, List.length_map]
  by_cases h : jm.SortConditions = []
  · simp [h]
  · have hpos : jm.SortConditions.length > 0 := List.length_pos.2 h
    simp [hpos, h]

theorem getMongoSortConditionLoop_eq (f : FieldsMap) (l : List SortInput)
    (acc : List (String × Bson)) :
    getMongoSortConditionLoop (some f) l acc =
      .ok (acc ++ l.map (fun s =>
        (f.SortingFields.index s.Field, Bson.int (mongoSortDirection s.SortCondition)))) := by
  induction l generalizing acc with
  | nil => simp [getMongoSortConditionLoop]
  | cons a rest ih => simp [getMongoSortConditionLoop, ih]

/-- C23: when every sort entry of the request has a registered field and the
direction "ASC" or "DESC", getMongoSortCondition returns no document for an
empty sort list and otherwise the document with one entry per sort entry, in
request order, whose key is SortingFields[field] and whose value is 1 for
"ASC" and -1 for "DESC". -/
theorem mongo_sort_order (fm : FieldsMap) (jm : JsonMap)
    (_hreg : sortKeyAbsent fm jm = false)
    (hdir : ∀ s ∈ jm.SortConditions, s.SortCondition = "ASC" ∨ s.SortCondition = "DESC") :
    getMongoSortCondition (some fm) jm =
      .ok (if jm.SortConditions = [] then none
           else some (jm.SortConditions.map (fun s =>
             (fm.SortingFields.index s.Field,
              Bson.int (if s.SortCondition = "ASC" then 1 else -1))))) ∧
    (jm.SortConditions.map (fun s =>
        (fm.SortingFields.index s.Field,
         Bson.int (if s.SortCondition = "ASC" then 1 else -1)))).length =
      jm.SortConditions.length := by
  refine ⟨?_, List.length_map _ _⟩
  have hmap : jm.SortConditions.map (fun s =>
        (fm.SortingFields.index s.Field, Bson.int (mongoSortDirection s.SortCondition))) =
      jm.SortConditions.map (fun s =>
        (fm.SortingFields.index s.Field,
         Bson.int (if s.SortCondition = "ASC" then 1 else -1))) := by
    apply List.map_congr_left
    intro s hs
    rcases hdir s hs with h | h <;> simp [mongoSortDirection, h]
  unfold getMongoSortCondition
  simp only [getMongoSortConditionLoop_eq, List.nil_append, hmap]
  by_cases h : jm.SortConditions = []
  · simp [h]
  · simp [h]

/-- Witness of C23 at a request that sorts by `name` descending, then
ascending. -/
theorem mongo_sort_order_witness :
    getMongoSortCondition (some userFields) projectedRequest =
      .ok (some [("u.full_name", Bson.int (-1)), ("u.full_name", Bson.int 1)]) :=
  (mongo_sort_order userFields projectedRequest (by decide) (by decide)).1

/-! ## Direction toggles and unused capabilities -/

theorem sortingTogglesLoop_find (t : ToggleConfig) (st : SortingToggles)
    (hst : t.SortingToggles = some st) (l : List SortInput) :
    validateSortingTogglesLoop t l =
      match l.find? (directionDisabled st) with
      | none => none
      | some s =>
        if s.SortCondition = "ASC" then
          some (newResponse TESOQL_TOGGLE_ERROR "DisableLowToHigh toggle is open."
            LOWTOHIGH_CONDITION_TOGGLE_ERR_CODE)
        else
          some (newResponse TESOQL_TOGGLE_ERROR "DisableHighToLow toggle is open."
            HIGHTOLOW_CONDITION_TOGGLE_ERR_CODE) := by
  have h1 : lowToHighDisabled t = st.DisableLowToHigh := by simp [lowToHighDisabled, hst]
  have h2 : highToLowDisabled t = st.DisableHighToLow := by simp [highToLowDisabled, hst]
  induction l with
  | nil => rfl
  | cons s rest ih =>
    simp only [validateSortingTogglesLoop, h1, h2, List.find?_cons, directionDisabled]
    by_cases ha : s.SortCondition = "ASC"
    · by_cases hl : st.DisableLowToHigh = true
      · simp [ha, hl]
      · simp [ha, hl, ih, directionDisabled]
    · by_cases hd : s.SortCondition = "DESC"
      · by_cases hh : st.DisableHighToLow = true
        · simp [hd, hh]
        · simp [hd, hh, ih, directionDisabled]
      · have hb1 : (s.SortCondition == "ASC") = false := by simpa using ha
        have hb2 : (s.SortCondition == "DESC") = false := by simpa using hd
        simp [hb1, hb2, ih]

/-- C24: for a request that passes the capability and operator toggle checks
and a policy with a non-nil SortingToggles, validateToggles returns a
TESOQL_TOGGLE_ERROR with code 400016 when the first sort entry whose direction
is disabled is an "ASC" entry, with code 400017 when it is a "DESC" entry,
and nil when no sort entry has a disabled direction. -/
theorem direction_toggle (jm : JsonMap) (t : ToggleConfig) (st : SortingToggles)
    (hupper : (validateUpperToggles jm t).2 = none)
    (hcond : validateConditionToggles jm t = none)
    (hst : t.SortingToggles = some st) :
    (∀ s, jm.SortConditions.find? (directionDisabled st) = some s → s.SortCondition = "ASC" →
      st.DisableLowToHigh = true ∧
      ∃ e, (validateToggles jm (some t)).2 = some e ∧
        e.ErrorType = "TESOQL_TOGGLE_ERROR" ∧ e.ErrorCode = 400016) ∧
    (∀ s, jm.SortConditions.find? (directionDisabled st) = some s → s.SortCondition = "DESC" →
      st.DisableHighToLow = true ∧
      ∃ e, (validateToggles jm (some t)).2 = some e ∧
        e.ErrorType = "TESOQL_TOGGLE_ERROR" ∧ e.ErrorCode = 400017) ∧
    ((∀ s ∈ jm.SortConditions, directionDisabled st s = false) →
      (validateToggles jm (some t)).2 = none) := by
  have hres : (validateToggles jm (some t)).2 =
      validateSortingTogglesLoop t jm.SortConditions := by
    rw [validateToggles_snd, hupper]
    unfold validateConditionToggles at hcond
    rw [hcond]
  rw [hres, sortingTogglesLoop_find t st hst]
  refine ⟨?_, ?_, ?_⟩
  · intro s hs ha
    have hp := List.find?_some hs
    simp only [directionDisabled, ha, Bool.or_eq_true, Bool.and_eq_true, beq_iff_eq] at hp
    have hlow : st.DisableLowToHigh = true := by
      rcases hp with ⟨_, h⟩ | ⟨h, _⟩
      · exact h
      · exact absurd h (by decide)
    refine ⟨hlow, ?_⟩
    rw [hs]
    simp only [ha, if_true]
    exact ⟨_, rfl, rfl, rfl⟩
  · intro s hs hd
    have hp := List.find?_some hs
    simp only [directionDisabled, hd, Bool.or_eq_true, Bool.and_eq_true, beq_iff_eq] at hp
    have hhigh : st.DisableHighToLow = true := by
      rcases hp with ⟨h, _⟩ | ⟨_, h⟩
      · exact absurd h (by decide)
      · exact h
    refine ⟨hhigh, ?_⟩
    rw [hs]
    have hne : ¬ s.SortCondition = "ASC" := by rw [hd]; decide
    simp only [hne, if_false]
    exact ⟨_, rfl, rfl, rfl⟩
  · intro hall
    have : jm.SortConditions.find? (directionDisabled st) = none := by
      rw [List.find?_eq_none]
      intro s hs
      simp [hall s hs]
    rw [this]

/-- Witness of C24 at a request whose second sort entry is the first with a
disabled direction, `ASC` under DisableLowToHigh. -/
theorem direction_toggle_witness :
    ∃ e, (validateToggles projectedRequest (some lowToHighOff)).2 = some e ∧
      e.ErrorType = "TESOQL_TOGGLE_ERROR" ∧ e.ErrorCode = 400016 :=
  ((direction_toggle projectedRequest lowToHighOff
      { DisableHighToLow := false, DisableLowToHigh := true } rfl rfl rfl).1
    { Field := "name", SortCondition := "ASC" } rfl rfl).2

/-- C25: for every policy, whatever flags it sets, and the nil policy, a
request that uses no capability (empty search, projection, sort and
conditions, limit and offset not above 0) gets nil from validateToggles. -/
theorem unused_capabilities (t : Option ToggleConfig) (jm : JsonMap)
    (hnone : usesNothing jm = true) :
    (validateToggles jm t).2 = none := by
  cases t with
  | none => rfl
  | some t =>
    simp only [usesNothing, Bool.and_eq_true, List.isEmpty_iff, decide_eq_true_eq] at hnone
    obtain ⟨⟨⟨⟨⟨h1, h2⟩, h3⟩, h4⟩, h5⟩, h6⟩ := hnone
    have hl : ¬ jm.Pagination.Limit > 0 := by omega
    have ho : ¬ jm.Pagination.Offset > 0 := by omega
    have hup : (validateUpperToggles jm t).2 = none := by
      unfold validateUpperToggles
      simp only
      split_ifs <;> simp_all <;> omega
    rw [validateToggles_snd, hup, h3, h4]
    rfl

/-- Witness of C25 at the policy with every flag set and the empty request. -/
theorem unused_capabilities_witness :
    (validateToggles emptyRequest (some allTogglesOff)).2 = none :=
  unused_capabilities (some allTogglesOff) emptyRequest (by decide)

/-! ## Errors through the service -/

/-- C26: when validateToggles returns an error, Get returns no rows, the
counts 0 and that error, and hands nothing to the repository; when
validateToggles returns nil and the result of the repository carries an
error, Get returns no rows, the counts 0 and that error unchanged, whatever
rows and counts the repository returned with it. -/
theorem get_propagates_errors (s : Service) (jm : JsonMap) :
    (∀ e, (validateToggles jm s.toggles).2 = some e →
      s.Get jm = ({ response := [], totalCount := 0, size := 0, err := some e }, [])) ∧
    (∀ e, (validateToggles jm s.toggles).2 = none →
      (s.repo (validateToggles jm s.toggles).1).err = some e →
      s.Get jm = ({ response := [], totalCount := 0, size := 0, err := some e },
                  [(validateToggles jm s.toggles).1])) := by
  constructor
  · intro e he
    unfold Service.Get
    split
    · rename_i h; rw [h] at he; injection he with he; subst he; rfl
    · rename_i h; rw [h] at he; cases he
  · intro e hn hr
    unfold Service.Get
    split
    · rename_i h; rw [h] at hn; cases hn
    · rename_i h
      rw [h] at hr
      simp only at hr ⊢
      rw [hr, h]

/-- Witness of C26 at a repository that returns a row together with an error. -/
theorem get_propagates_errors_witness :
    Service.Get { repo := failingRepository, toggles := some noToggles } adultsRequest =
      ({ response := [], totalCount := 0, size := 0,
         err := some (newResponse "TESOQL_SQL_ERROR" "count failed" 500004) },
       [(validateToggles adultsRequest (some noToggles)).1]) :=
  (get_propagates_errors { repo := failingRepository, toggles := some noToggles }
    adultsRequest).2 _ rfl rfl

/-- C27 (the code at the failing input): under a policy that disables
pagination and the bound 50, the request with limit 0 and offset 0 passes
Validate, which sets its limit to 50, and Get on the validated request fails
with the pagination toggle error 400009 without reaching the repository,
whereas Get on the request as it was asked reaches the repository; and for
every request that Validate accepts under a positive bound, Get fails with
that error whenever DisablePagination is set and no earlier capability flag
is. -/
theorem validate_then_get_pagination :
    Validate emptyRequest { DefaultConfig with Toggles := some paginationOff } =
      .ok ({ emptyRequest with Pagination := { Limit := 50, Offset := 0 } }, none) ∧
    Service.Get { repo := idleRepository, toggles := some paginationOff }
        { emptyRequest with Pagination := { Limit := 50, Offset := 0 } } =
      ({ response := [], totalCount := 0, size := 0,
         err := some (newResponse "TESOQL_TOGGLE_ERROR" "DisablePagination toggle is open."
           400009) }, []) ∧
    Service.Get { repo := idleRepository, toggles := some paginationOff } emptyRequest =
      ({ response := [], totalCount := 0, size := 0, err := none }, [emptyRequest]) ∧
    (∀ (cfg : Config) (jm jm' : JsonMap) (s : Service) (t : ToggleConfig),
      Validate jm cfg = .ok (jm', none) → 0 < upperBoundOf cfg.Pagination →
      s.toggles = some t → t.DisablePagination = true → t.DisableSearch = false →
      t.DisableProjection = false → t.DisableSorting = false →
      s.Get jm' =
        ({ response := [], totalCount := 0, size := 0,
           err := some (newResponse "TESOQL_TOGGLE_ERROR" "DisablePagination toggle is open."
             400009) }, [])) := by
  refine ⟨rfl, rfl, rfl, ?_⟩
  intro cfg jm jm' s t hv hub ht hp h1 h2 h3
  have hjm := validate_ok_pagination jm jm' cfg hv
  have hlim : jm'.Pagination.Limit > 0 := by
    rw [hjm]
    exact (validatePagination_limit jm cfg.Pagination hub).1
  have hup : (validateUpperToggles jm' t).2 =
      some (newResponse "TESOQL_TOGGLE_ERROR" "DisablePagination toggle is open." 400009) := by
    unfold validateUpperToggles
    simp only [h1, h2, h3, hp]
    split_ifs <;> simp_all [newResponse, TESOQL_TOGGLE_ERROR, PAGINATION_TOGGLE_ERR_CODE]
  have hres : (validateToggles jm' s.toggles).2 =
      some (newResponse "TESOQL_TOGGLE_ERROR" "DisablePagination toggle is open." 400009) := by
    rw [ht, validateToggles_snd, hup]
  unfold Service.Get
  split
  · rename_i h; rw [h] at hres; injection hres with hres; subst hres; rfl
  · rename_i h; rw [h] at hres; cases hres

/-! ## Clamping -/

/-- C28: for every PaginationConfig, the nil one included, and every request,
validatePagination applied twice leaves the request that one application
leaves. -/
theorem validatePagination_idempotent (pc : Option PaginationConfig) (jm : JsonMap) :
    validatePagination (validatePagination jm pc) pc = validatePagination jm pc := by
  have ho := validatePagination_offset jm pc
  have hl : (validatePagination jm pc).Pagination.Limit = upperBoundOf pc ∨
      (0 < (validatePagination jm pc).Pagination.Limit ∧
        (validatePagination jm pc).Pagination.Limit ≤ upperBoundOf pc) := by
    simp only [validatePagination]
    split
    · exact Or.inl rfl
    · rename_i h
      simp only [Bool.or_eq_true, decide_eq_true_eq, not_or, not_le, not_lt] at h
      exact Or.inr h
  generalize validatePagination jm pc = r at ho hl
  obtain ⟨h1, h2⟩ := ho
  have e1 : (if (decide (r.Pagination.Offset < 0) || decide (r.Pagination.Offset > 500)) = true
      then 0 else r.Pagination.Offset) = r.Pagination.Offset := by
    split
    · rename_i h
      simp only [Bool.or_eq_true, decide_eq_true_eq] at h
      omega
    · rfl
  have e2 : (if (decide (r.Pagination.Limit ≤ 0) ||
        decide (r.Pagination.Limit > upperBoundOf pc)) = true
      then upperBoundOf pc else r.Pagination.Limit) = r.Pagination.Limit := by
    split
    · rename_i h
      simp only [Bool.or_eq_true, decide_eq_true_eq] at h
      omega
    · rfl
  simp only [validatePagination, e1, e2]

/-- C29: for every PaginationConfig and request, validatePagination leaves
the offset as it is when it lies in 0..500 and sets it to 0 otherwise, leaves
the limit as it is when it is above 0 and at most the bound and sets it to the
bound otherwise, the bound being LimitUpperBound and 50 for the nil
configuration, and changes no field of the request other than Pagination. -/
theorem validatePagination_spec (pc : Option PaginationConfig) (jm : JsonMap) :
    (validatePagination jm pc).Pagination.Offset =
      (if 0 ≤ jm.Pagination.Offset ∧ jm.Pagination.Offset ≤ 500 then jm.Pagination.Offset
       else 0) ∧
    (validatePagination jm pc).Pagination.Limit =
      (if 0 < jm.Pagination.Limit ∧ jm.Pagination.Limit ≤ upperBoundOf pc
       then jm.Pagination.Limit else upperBoundOf pc) ∧
    upperBoundOf none = 50 ∧
    (∀ c : PaginationConfig, upperBoundOf (some c) = c.LimitUpperBound) ∧
    { validatePagination jm pc with Pagination := jm.Pagination } = jm := by
  refine ⟨?_, ?_, rfl, fun _ => rfl, rfl⟩
  · simp only [validatePagination]
    split_ifs with h1 h2 <;> simp only [Bool.or_eq_true, decide_eq_true_eq] at h1 <;> omega
  · simp only [validatePagination]
    split_ifs with h1 h2 <;> simp only [Bool.or_eq_true, decide_eq_true_eq] at h1 <;> omega

/-! ## The engine switch -/

theorem sqlDriverList_index (e : String) :
    sqlDriverList.index e = if e ∈ sqlDriverList.keys then e else "" := by
  have key : ∀ l : List String,
      ((l.map (fun k => (k, k))).lookup e).getD "" = if e ∈ l then e else "" := by
    intro l
    induction l with
    | nil => rfl
    | cons a rest ih =>
      simp only [List.map_cons, List.lookup, List.mem_cons]
      by_cases h : e = a
      · subst h; simp
      · have hb : (e == a) = false := by simpa using h
        simp [hb, h, ih]
  exact key sqlDriverList.keys

/-- C30 (the code at the failing input): for the engine `""`, which is neither
`mongo` nor a key of sqlDriverList, the switch of NewTesoQL selects the SQL
repository and does not reach its panic; for every configuration the switch
selects the Mongo repository exactly for `mongo`, the SQL repository exactly
for the keys of sqlDriverList and for `""`, and panics with
`DB connection could not have been established!` for every other engine. -/
theorem engine_switch :
    "" ∉ sqlDriverList.keys ∧
    NewTesoQL emptyEngineConfig = .ok Repository.sqlRepository ∧
    (∀ cfg : Config,
      (NewTesoQL cfg = .ok Repository.mongoRepository ↔ cfg.Engine = "mongo") ∧
      (NewTesoQL cfg = .ok Repository.sqlRepository ↔
        cfg.Engine ∈ sqlDriverList.keys ∨ cfg.Engine = "") ∧
      (NewTesoQL cfg = .error "DB connection could not have been established!" ↔
        cfg.Engine ≠ "mongo" ∧ cfg.Engine ∉ sqlDriverList.keys ∧ cfg.Engine ≠ "")) := by
  have hmongo : "mongo" ∉ sqlDriverList.keys := by decide
  refine ⟨by decide, rfl, ?_⟩
  intro cfg
  unfold NewTesoQL
  rw [sqlDriverList_index]
  by_cases hm : cfg.Engine = "mongo"
  · simp [hm, hmongo]
  · by_cases hk : cfg.Engine ∈ sqlDriverList.keys
    · simp [hm, hk]
    · by_cases he : cfg.Engine = ""
      · simp [hm, hk, he]
      · have hb : (cfg.Engine == "") = false := by simpa using he
        simp [hm, hk, he, hb]

/-! ## The request after Validate -/

theorem validate_error_unchanged (jm jm' : JsonMap) (cfg : Config) (e : ErrorResponseDTO)
    (h : Validate jm cfg = .ok (jm', some e)) : jm' = jm := by
  unfold Validate at h
  split at h
  · injection h with h; injection h with h1 h2; exact h1.symm
  · split at h
    · injection h with h; injection h with h1 h2; exact h1.symm
    · split at h
      · cases h
      · injection h with h; injection h with h1 h2; exact h1.symm
      · injection h with h; injection h with h1 h2; cases h2

theorem validate_ok_checks (jm jm' : JsonMap) (cfg : Config)
    (h : Validate jm cfg = .ok (jm', none)) :
    (∀ fm, cfg.FieldsMap = some fm → validateSearchAndProjection jm fm = none) ∧
    validateConditions jm cfg.FieldsMap = none ∧
    validateSorting jm cfg.FieldsMap = .ok none := by
  unfold Validate at h
  split at h
  · injection h with h; injection h with h1 h2; cases h2
  · rename_i hsp
    split at h
    · injection h with h; injection h with h1 h2; cases h2
    · rename_i hc
      split at h
      · cases h
      · injection h with h; injection h with h1 h2; cases h2
      · rename_i hs
        refine ⟨?_, hc, hs⟩
        intro fm hfm
        rw [hfm] at hsp
        exact hsp

/-- C31: whenever Validate returns, with an error the request is left as it
was, its pagination included; the pagination is rewritten, to its clamped
value, only when Validate returns nil, which it does only when the search and
projection check, the condition check and the sort check have all returned
nil; and in both cases every field other than Pagination is as it was. -/
theorem validate_frame (cfg : Config) (jm jm' : JsonMap) (r : Option ErrorResponseDTO)
    (h : Validate jm cfg = .ok (jm', r)) :
    (∀ e, r = some e → jm' = jm) ∧
    (r = none →
      jm' = validatePagination jm cfg.Pagination ∧
      (∀ fm, cfg.FieldsMap = some fm → validateSearchAndProjection jm fm = none) ∧
      validateConditions jm cfg.FieldsMap = none ∧
      validateSorting jm cfg.FieldsMap = .ok none) ∧
    { jm' with Pagination := jm.Pagination } = jm := by
  cases r with
  | some e =>
    have hjm := validate_error_unchanged jm jm' cfg e h
    refine ⟨fun _ _ => hjm, ?_, ?_⟩
    · intro hn
      cases hn
    · rw [hjm]
  | none =>
    have hjm := validate_ok_pagination jm jm' cfg h
    refine ⟨?_, fun _ => ⟨hjm, validate_ok_checks jm jm' cfg h⟩, ?_⟩
    · intro e he
      cases he
    · rw [hjm]
      rfl

/-- Witness of C31 at the request of the `age` example, which Validate
accepts: apart from its pagination the request is as it was. -/
theorem validate_frame_witness :
    { validatePagination adultsRequest userConfig.Pagination with
      Pagination := adultsRequest.Pagination } = adultsRequest :=
  (validate_frame userConfig adultsRequest
    (validatePagination adultsRequest userConfig.Pagination) none rfl).2.2

/-! ## Unregistered projection keys -/

theorem filterMap_get_eq (m : StrMap) (l : List String) :
    l.filterMap (fun field => m.get? field) =
      (l.filter (fun field => m.has field)).map (fun field => m.index field) := by
  induction l with
  | nil => rfl
  | cons a rest ih =>
    cases h : m.get? a with
    | none => simp [List.filterMap_cons, List.filter_cons, h, StrMap.has, ih]
    | some v => simp [List.filterMap_cons, List.filter_cons, h, StrMap.has, StrMap.index, ih]

theorem getMongoProjectionLoop_eq (f : FieldsMap) (l : List String)
    (acc : List (String × Bson)) :
    getMongoProjectionLoop (some f) l acc =
      .ok (acc ++ l.map (fun field => (f.ProjectionFields.index field, Bson.int 1))) := by
  induction l generalizing acc with
  | nil => simp [getMongoProjectionLoop]
  | cons a rest ih => simp [getMongoProjectionLoop, ih]

theorem NewSqlQuery_select (jm : JsonMap) (fm : Option FieldsMap) (q : SqlQuery)
    (h : NewSqlQuery jm fm = .ok q) : getSqlProjection fm jm = .ok q.Select := by
  unfold NewSqlQuery at h
  cases h1 : getSqlProjection fm jm with
  | error p => simp [h1, bind, Except.bind] at h
  | ok s =>
    cases h2 : getSqlFilter fm jm with
    | error p => simp [h1, h2, bind, Except.bind] at h
    | ok wa =>
      cases h3 : getSqlSortCondition fm jm with
      | error p => simp [h1, h2, h3, bind, Except.bind] at h
      | ok o =>
        simp only [h1, h2, h3, bind, Except.bind, pure, Except.pure] at h
        injection h with h
        subst h
        rfl

/-- C32: for a non-empty projection list getSqlProjection returns the
", "-join of the identifiers of the registered keys only, in request order,
the keys absent from ProjectionFields being dropped; when no requested key is
registered it returns the empty text, not `*`, and GetSqlQuery then returns a
text that starts with `SELECT  FROM <table> WHERE 1=1`; getMongoProjection
returns for the same list one entry per requested field, whose key is the
empty text for every field absent from ProjectionFields. -/
theorem projection_drops_unregistered (fm : FieldsMap) (jm : JsonMap) (tableName : String)
    (hne : jm.ProjectionFields ≠ []) :
    getSqlProjection (some fm) jm =
      .ok (stringsJoin
        ((jm.ProjectionFields.filter (fun field => fm.ProjectionFields.has field)).map
          (fun field => fm.ProjectionFields.index field)) ", ") ∧
    ((∀ field ∈ jm.ProjectionFields, fm.ProjectionFields.has field = false) →
      getSqlProjection (some fm) jm = .ok "" ∧
      ∃ rest args, GetSqlQuery jm (some fm) tableName =
        .ok ("SELECT  FROM " ++ tableName ++ " WHERE 1=1" ++ rest, rest, args)) ∧
    getMongoProjection (some fm) jm =
      .ok (some (jm.ProjectionFields.map
        (fun field => (fm.ProjectionFields.index field, Bson.int 1)))) ∧
    (∀ field, fm.ProjectionFields.has field = false → fm.ProjectionFields.index field = "") := by
  have hpos : jm.ProjectionFields.length > 0 := List.length_pos.2 hne
  have hsel : getSqlProjection (some fm) jm =
      .ok (stringsJoin
        ((jm.ProjectionFields.filter (fun field => fm.ProjectionFields.has field)).map
          (fun field => fm.ProjectionFields.index field)) ", ") := by
    unfold getSqlProjection
    simp only [hpos, if_true, getSqlProjectionLoop_eq, List.nil_append, filterMap_get_eq]
  refine ⟨hsel, ?_, ?_, ?_⟩
  · intro habs
    have hfilter : jm.ProjectionFields.filter (fun field => fm.ProjectionFields.has field) = [] := by
      rw [List.filter_eq_nil_iff]
      intro a ha
      simp [habs a ha]
    have hempty : getSqlProjection (some fm) jm = .ok "" := by
      rw [hsel, hfilter]
      rfl
    refine ⟨hempty, ?_⟩
    obtain ⟨q, hq, _⟩ := NewSqlQuery_filter fm jm
    have hs := NewSqlQuery_select jm (some fm) q hq
    rw [hempty] at hs
    injection hs with hs
    refine ⟨(if q.Where != "" then " AND " ++ q.Where else "") ++
        (q.OrderBy ++ " " ++ q.Limit ++ " " ++ q.Offset), q.Args, ?_⟩
    simp only [GetSqlQuery, hq, bind, Except.bind, pure, Except.pure, ← hs]
    rfl
  · unfold getMongoProjection
    simp only [getMongoProjectionLoop_eq, List.nil_append]
    have : (jm.ProjectionFields.map
        (fun field => (fm.ProjectionFields.index field, Bson.int 1))).isEmpty = false := by
      cases hl : jm.ProjectionFields with
      | nil => exact absurd hl hne
      | cons a rest => rfl
    simp [this]
  · intro field h
    unfold StrMap.has at h
    unfold StrMap.index
    cases hg : fm.ProjectionFields.get? field with
    | none => rfl
    | some v => rw [hg] at h; cases h

/-- Witness of C32 at a request that projects `name`, the unregistered key
`ghost`, and `age`, and at a request that projects two unregistered keys. -/
theorem projection_drops_unregistered_witness :
    getSqlProjection (some userFields) mixedProjection = .ok "u.full_name, u.age" ∧
    getMongoProjection (some userFields) mixedProjection =
      .ok (some [("u.full_name", Bson.int 1), ("", Bson.int 1), ("u.age", Bson.int 1)]) ∧
    getSqlProjection (some userFields) ghostProjection = .ok "" :=
  ⟨(projection_drops_unregistered userFields mixedProjection "users" (by decide)).1,
   (projection_drops_unregistered userFields mixedProjection "users" (by decide)).2.2.1,
   ((projection_drops_unregistered userFields ghostProjection "users" (by decide)).2.1
      (by decide)).1⟩

end Tesoql
